import Mathlib

/-!
Shallow embedding of the HiGHS run orchestrator (src/lp_data/Highs.cpp).

The embedding models the `Highs` class state (LP, model-object pool,
options, caller-visible solution/basis/info, model statuses, presolve
component) and the control flow of `Highs::run`, `Highs::runPresolve`,
`Highs::runPostsolve`, `Highs::runLpSolver`, `Highs::beforeReturnFromRun`,
`Highs::getUseModelStatus`, `Highs::unscaledOptimal`, the incremental
editing operations and `Highs::writeSolution`.

External collaborators (the LP solver dispatcher `solveLp`, the presolve
engine `presolve_.run`, `cleanBounds`, the postsolve routine, the file
system and the wall clock) are supplied as an explicit `HighsExternal`
record of outcomes, quantified over in the theorems.  Doubles are
modelled as rationals; wall-clock readings are oracle-provided rationals.

A run additionally produces a trace of `RunEvent`s recording which
pipeline stages (presolve / solve / postsolve) were invoked and the
option values in force at each solver invocation.
-/

/-- Aggregate return code of HiGHS calls (HighsStatus.h). -/
inductive HighsStatus
  | OK
  | Warning
  | Error
deriving DecidableEq

/-- Model status enumeration (HighsModelStatus in HighsLp.h). -/
inductive HighsModelStatus
  | NOTSET
  | LOAD_ERROR
  | MODEL_ERROR
  | PRESOLVE_ERROR
  | SOLVE_ERROR
  | POSTSOLVE_ERROR
  | MODEL_EMPTY
  | PRIMAL_INFEASIBLE
  | PRIMAL_UNBOUNDED
  | OPTIMAL
  | REACHED_DUAL_OBJECTIVE_VALUE_UPPER_BOUND
  | REACHED_TIME_LIMIT
  | REACHED_ITERATION_LIMIT
deriving DecidableEq

/-- Outcomes of the presolve engine (Presolve.h). -/
inductive HighsPresolveStatus
  | NotPresolved
  | NotReduced
  | Reduced
  | ReducedToEmpty
  | Infeasible
  | Unbounded
  | Timeout
  | OptionsError
  | NullError
  | Error
deriving DecidableEq

/-- Outcomes of the postsolve routine (Presolve.h). -/
inductive HighsPostsolveStatus
  | SolutionRecovered
  | ReducedSolutionDimenionsError
  | NoPostsolve
  | LpOrPresolveObjectMissing
deriving DecidableEq

/-- Objective sense of the LP. -/
inductive ObjSense
  | MINIMIZE
  | MAXIMIZE
deriving DecidableEq

/-- Per-variable basis status (HighsBasisStatus in HighsLp.h). -/
inductive HighsBasisStatus
  | LOWER
  | BASIC
  | UPPER
  | ZERO
  | NONBASIC
  | SUPER
deriving DecidableEq

/-- The LP problem data (HighsLp): column/row counts, costs, bounds,
constraint matrix in compressed sparse column form, objective sense. -/
structure HighsLp where
  numCol : Nat
  numRow : Nat
  colCost : List ℚ
  colLower : List ℚ
  colUpper : List ℚ
  rowLower : List ℚ
  rowUpper : List ℚ
  Astart : List Nat
  Aindex : List Nat
  Avalue : List ℚ
  sense : ObjSense
deriving DecidableEq

/-- The LP with no columns and no rows. -/
def emptyLp : HighsLp :=
  ⟨0, 0, [], [], [], [], [], [0], [], [], ObjSense.MINIMIZE⟩

/-- Primal and dual values of a solution (HighsSolution). -/
structure HighsSolution where
  col_value : List ℚ
  row_value : List ℚ
  col_dual : List ℚ
  row_dual : List ℚ
deriving DecidableEq

/-- The solution whose four arrays are all empty. -/
def emptySolution : HighsSolution := ⟨[], [], [], []⟩

/-- Caller-visible basis: per-column and per-row status plus validity flag. -/
structure HighsBasis where
  col_status : List HighsBasisStatus
  row_status : List HighsBasisStatus
  valid_ : Bool
deriving DecidableEq

/-- The invalid basis with empty status arrays. -/
def emptyBasis : HighsBasis := ⟨[], [], false⟩

/-- Modelled from the spec: the not-yet-set code of the PrimalDualStatus
enumeration (HighsModelUtils.h is not part of the sources given). -/
def STATUS_NOTSET : Int := 0

/-- Solution quality parameters of a model object (HighsSolutionParams). -/
structure HighsSolutionParams where
  primal_status : Int
  dual_status : Int
  objective_function_value : ℚ
  num_primal_infeasibilities : Int
  max_primal_infeasibility : ℚ
  sum_primal_infeasibilities : ℚ
  num_dual_infeasibilities : Int
  max_dual_infeasibility : ℚ
  sum_dual_infeasibilities : ℚ
deriving DecidableEq

/-- Modelled from the spec: freshly reset solution parameters (the helper
resetModelStatusAndSolutionParams lives in HighsSolution.cpp, outside the
given sources). -/
def HighsSolutionParams.reset : HighsSolutionParams :=
  ⟨STATUS_NOTSET, STATUS_NOTSET, 0, 0, 0, 0, 0, 0, 0⟩

/-- Caller-visible statistics (HighsInfo). -/
structure HighsInfo where
  primal_status : Int
  dual_status : Int
  objective_function_value : ℚ
  num_primal_infeasibilities : Int
  max_primal_infeasibility : ℚ
  sum_primal_infeasibilities : ℚ
  num_dual_infeasibilities : Int
  max_dual_infeasibility : ℚ
  sum_dual_infeasibilities : ℚ
  simplex_iteration_count : Nat
deriving DecidableEq

/-- The cleared info record (HighsInfo::clear resets every value). -/
def HighsInfo.cleared : HighsInfo :=
  ⟨STATUS_NOTSET, STATUS_NOTSET, 0, 0, 0, 0, 0, 0, 0, 0⟩

/-- The option values consumed by the orchestrator (HighsOptions). -/
structure HighsOptions where
  presolve : String
  solver : String
  run_crossover : Bool
  run_as_hsol : Bool
  model_file : String
  time_limit : ℚ
  dual_objective_value_upper_bound : ℚ
  highs_min_threads : Nat
  highs_max_threads : Nat
  simplex_strategy : Nat
  message_level : Nat
deriving DecidableEq

def off_string : String := "off"

def on_string : String := "on"

def ipm_string : String := "ipm"

def simplex_string : String := "simplex"

def choose_string : String := "choose"

def FILENAME_DEFAULT : String := ""

/-- HIGHS_CONST_INF, the value used as infinity for option bounds. -/
def HIGHS_CONST_INF : ℚ := 10 ^ 200

def SIMPLEX_STRATEGY_CHOOSE : Nat := 0

/-- Default option values used by the default constructor. -/
def HighsOptions.default0 : HighsOptions :=
  ⟨choose_string, choose_string, false, false, FILENAME_DEFAULT,
    HIGHS_CONST_INF, HIGHS_CONST_INF, 1, 8, SIMPLEX_STRATEGY_CHOOSE, 1⟩

/-- A solve context (HighsModelObject): a working copy of a (possibly
reduced) LP with its own basis, solution, status pair, solution
parameters and iteration counts. -/
structure HighsModelObject where
  lp_ : HighsLp
  basis_ : HighsBasis
  solution_ : HighsSolution
  scaled_model_status_ : HighsModelStatus
  unscaled_model_status_ : HighsModelStatus
  unscaled_solution_params_ : HighsSolutionParams
  scaled_solution_params_ : HighsSolutionParams
  simplex_iteration_count : Nat
deriving DecidableEq

/-- A freshly constructed HighsModelObject for a given LP. -/
def HighsModelObject.mk0 (lp : HighsLp) : HighsModelObject :=
  ⟨lp, emptyBasis, emptySolution, HighsModelStatus.NOTSET,
    HighsModelStatus.NOTSET, HighsSolutionParams.reset,
    HighsSolutionParams.reset, 0⟩

def defaultHmo : HighsModelObject := HighsModelObject.mk0 emptyLp

/-- Counts of presolve reductions (PresolveInfo). -/
structure PresolveInfo where
  n_cols_removed : Int
  n_rows_removed : Int
  n_nnz_removed : Int
deriving DecidableEq

/-- The presolve session component (PresolveComponent, outside the given
sources): holds the reduced problem, the reduced-space solution and basis
used as postsolve input, the recovered solution, a time budget and the
reduction counters.  Modelled from the spec where its internals are
referenced. -/
structure PresolveComponent where
  has_run_ : Bool
  presolve_status_ : HighsPresolveStatus
  lp_copy : HighsLp
  reduced_lp : HighsLp
  reduced_solution_ : HighsSolution
  recovered_solution_ : HighsSolution
  basis_col_status : List HighsBasisStatus
  basis_row_status : List HighsBasisStatus
  time_limit : ℚ
  info : PresolveInfo
deriving DecidableEq

/-- A cleared presolve component (PresolveComponent::clear). -/
def PresolveComponent.clear0 : PresolveComponent :=
  ⟨false, HighsPresolveStatus.NotPresolved, emptyLp, emptyLp,
    emptySolution, emptySolution, [], [], 0, ⟨0, 0, 0⟩⟩

/-- The whole caller-visible state of a Highs object. -/
structure HighsState where
  lp_ : HighsLp
  hmos_ : List HighsModelObject
  options_ : HighsOptions
  solution_ : HighsSolution
  basis_ : HighsBasis
  info_ : HighsInfo
  model_status_ : HighsModelStatus
  scaled_model_status_ : HighsModelStatus
  presolve_ : PresolveComponent
deriving DecidableEq

/-- The Highs default constructor: clear the pool and push one model
object for the (default, empty) LP. -/
def Highs.construct : HighsState :=
  ⟨emptyLp, [HighsModelObject.mk0 emptyLp], HighsOptions.default0,
    emptySolution, emptyBasis, HighsInfo.cleared,
    HighsModelStatus.NOTSET, HighsModelStatus.NOTSET,
    PresolveComponent.clear0⟩

/-- std::vector::resize with a default element: keep a prefix, pad with
the default value. -/
def listResize (l : List α) (n : Nat) (d : α) : List α :=
  l.take n ++ List.replicate (n - l.length) d

/-- Update the i-th entry of a list in place. -/
def updAt (l : List α) (i : Nat) (f : α → α) : List α :=
  match l, i with
  | [], _ => []
  | a :: t, 0 => f a :: t
  | a :: t, i + 1 => a :: updAt t i f

/-- Modelled from the spec: combination of per-stage return codes by the
worst-wins rule, Error dominating Warning dominating OK
(interpretCallStatus lives in HighsStatus.cpp, outside the given
sources). -/
def interpretCallStatus (call_status return_status : HighsStatus) : HighsStatus :=
  match call_status, return_status with
  | HighsStatus.Error, _ => HighsStatus.Error
  | _, HighsStatus.Error => HighsStatus.Error
  | HighsStatus.Warning, _ => HighsStatus.Warning
  | _, HighsStatus.Warning => HighsStatus.Warning
  | HighsStatus.OK, HighsStatus.OK => HighsStatus.OK

/-- Modelled from the spec: the fixed mapping from a model status to the
aggregate return code of section 4.4 (highsStatusFromHighsModelStatus
lives in HighsModelUtils.cpp, outside the given sources): error-class
statuses give Error, resource-limit statuses give Warning, every other
settled status is a valid OK answer. -/
def highsStatusFromHighsModelStatus : HighsModelStatus → HighsStatus
  | HighsModelStatus.NOTSET => HighsStatus.Error
  | HighsModelStatus.LOAD_ERROR => HighsStatus.Error
  | HighsModelStatus.MODEL_ERROR => HighsStatus.Error
  | HighsModelStatus.PRESOLVE_ERROR => HighsStatus.Error
  | HighsModelStatus.SOLVE_ERROR => HighsStatus.Error
  | HighsModelStatus.POSTSOLVE_ERROR => HighsStatus.Error
  | HighsModelStatus.MODEL_EMPTY => HighsStatus.OK
  | HighsModelStatus.PRIMAL_INFEASIBLE => HighsStatus.OK
  | HighsModelStatus.PRIMAL_UNBOUNDED => HighsStatus.OK
  | HighsModelStatus.OPTIMAL => HighsStatus.OK
  | HighsModelStatus.REACHED_DUAL_OBJECTIVE_VALUE_UPPER_BOUND => HighsStatus.OK
  | HighsModelStatus.REACHED_TIME_LIMIT => HighsStatus.Warning
  | HighsModelStatus.REACHED_ITERATION_LIMIT => HighsStatus.Warning

/-- Modelled from the spec: a solution is consistent with an LP when each
of its arrays matches the LP dimensions (isSolutionConsistent lives in
HighsSolution.cpp, outside the given sources; the spec demands arrays
exactly sized to the model and postsolve fails with a dimension mismatch
otherwise). -/
def isSolutionConsistent (lp : HighsLp) (sol : HighsSolution) : Bool :=
  sol.col_value.length = lp.numCol ∧ sol.row_value.length = lp.numRow ∧
    sol.col_dual.length = lp.numCol ∧ sol.row_dual.length = lp.numRow

/-- Highs::clearModelStatus. -/
def Highs.clearModelStatus (s : HighsState) : HighsState :=
  { s with model_status_ := HighsModelStatus.NOTSET,
           scaled_model_status_ := HighsModelStatus.NOTSET }

/-- Highs::clearSolution: reset the primal/dual status info values and
resize the four solution arrays to zero. -/
def Highs.clearSolution (s : HighsState) : HighsState :=
  { s with info_ := { s.info_ with primal_status := STATUS_NOTSET,
                                   dual_status := STATUS_NOTSET },
           solution_ := emptySolution }

/-- Highs::clearBasis: invalidate the basis and resize its arrays to zero. -/
def Highs.clearBasis (s : HighsState) : HighsState :=
  { s with basis_ := emptyBasis }

/-- Highs::clearInfo. -/
def Highs.clearInfo (s : HighsState) : HighsState :=
  { s with info_ := HighsInfo.cleared }

/-- Highs::clearSolver: clear status, solution, basis and info. -/
def Highs.clearSolver (s : HighsState) : HighsState :=
  Highs.clearInfo (Highs.clearBasis (Highs.clearSolution (Highs.clearModelStatus s)))

/-- Highs::beforeReturnFromRun: the status finalizer.  Remove any
additional model object created while solving, then apply the fixed
status-to-retained-state mapping keyed on the scaled model status. -/
def Highs.beforeReturnFromRun (return_status : HighsStatus) (s : HighsState) : HighsState :=
  if s.hmos_.length = 0 then
    Highs.clearSolver s
  else
    let s := if s.hmos_.length > 1 then { s with hmos_ := s.hmos_.dropLast } else s
    match s.scaled_model_status_ with
    | HighsModelStatus.NOTSET => Highs.clearSolver s
    | HighsModelStatus.LOAD_ERROR => Highs.clearSolver s
    | HighsModelStatus.MODEL_ERROR => Highs.clearSolver s
    | HighsModelStatus.PRESOLVE_ERROR => Highs.clearSolver s
    | HighsModelStatus.SOLVE_ERROR => Highs.clearSolver s
    | HighsModelStatus.POSTSOLVE_ERROR => Highs.clearSolver s
    | HighsModelStatus.MODEL_EMPTY =>
        Highs.clearInfo (Highs.clearBasis (Highs.clearSolution s))
    | HighsModelStatus.PRIMAL_INFEASIBLE => Highs.clearSolution s
    | HighsModelStatus.PRIMAL_UNBOUNDED =>
        Highs.clearInfo (Highs.clearSolution s)
    | HighsModelStatus.OPTIMAL => s
    | HighsModelStatus.REACHED_DUAL_OBJECTIVE_VALUE_UPPER_BOUND =>
        Highs.clearInfo (Highs.clearBasis (Highs.clearSolution s))
    | HighsModelStatus.REACHED_TIME_LIMIT =>
        Highs.clearInfo (Highs.clearBasis (Highs.clearSolution s))
    | HighsModelStatus.REACHED_ITERATION_LIMIT =>
        Highs.clearInfo (Highs.clearBasis (Highs.clearSolution s))

/-- Highs::haveHmo. -/
def Highs.haveHmo (s : HighsState) : Bool := s.hmos_.length > 0

/-- Resize the four arrays of a solution to given dimensions. -/
def resizeSolution (sol : HighsSolution) (numCol numRow : Nat) : HighsSolution :=
  ⟨listResize sol.col_value numCol 0, listResize sol.row_value numRow 0,
    listResize sol.col_dual numCol 0, listResize sol.row_dual numRow 0⟩

/-- Highs::updateHighsSolutionBasis: resize the caller-visible solution
(and the context-0 solution) to the current LP dimensions; adopt the
context-0 basis when it is valid, otherwise invalidate the caller-visible
basis and resize its arrays. -/
def Highs.updateHighsSolutionBasis (s : HighsState) : Bool × HighsState :=
  if ¬ Highs.haveHmo s then (false, s)
  else
    let s := { s with
      solution_ := resizeSolution s.solution_ s.lp_.numCol s.lp_.numRow,
      hmos_ := updAt s.hmos_ 0 fun m =>
        { m with solution_ := resizeSolution m.solution_ s.lp_.numCol s.lp_.numRow } }
    let hmo0 := s.hmos_.getD 0 defaultHmo
    if hmo0.basis_.valid_ then
      (true, { s with basis_ := hmo0.basis_ })
    else
      (true, { s with basis_ :=
        ⟨listResize s.basis_.col_status s.lp_.numCol HighsBasisStatus.LOWER,
          listResize s.basis_.row_status s.lp_.numRow HighsBasisStatus.LOWER,
          false⟩ })

/-- The external collaborators of the orchestrator, supplied as explicit
outcomes: the option transform applied when running as hsol, the model
loader, two wall-clock readings used by the presolve time-budget checks,
the presolve engine outcome and its reduced problem, cleanBounds, the LP
solver dispatcher (given the index of the solve invocation within the
run, the options in force and the context to solve), the postsolve
routine and the postsolve-recovered basis. -/
structure HighsExternal where
  setHsolOptions : HighsOptions → HighsOptions
  readModel : HighsStatus × HighsLp
  clockStart : ℚ
  clockAfterInit : ℚ
  presolveRun : HighsPresolveStatus
  reducedLp : HighsLp
  cleanBounds : HighsLp → HighsStatus × HighsLp
  solveLp : Nat → HighsOptions → HighsModelObject → HighsModelObject × HighsStatus
  postsolve : HighsSolution → HighsPostsolveStatus × HighsSolution
  postsolveColStatus : List HighsBasisStatus
  postsolveRowStatus : List HighsBasisStatus

/-- Trace of pipeline stages invoked during one run: the presolve stage,
each solver invocation (with its ordinal and the options in force at the
call), and the postsolve stage. -/
inductive RunEvent
  | presolveCall
  | solveCall (callIdx : Nat) (opts : HighsOptions)
  | postsolveCall
deriving DecidableEq

/-- Number of solver invocations recorded so far. -/
def countSolveEvents (evs : List RunEvent) : Nat :=
  (evs.filter fun e =>
    match e with
    | RunEvent.solveCall _ _ => true
    | _ => false).length

/-- Result of Highs::run: the aggregate status, the final state, and the
trace of pipeline stages invoked. -/
structure RunResult where
  status : HighsStatus
  state : HighsState
  events : List RunEvent
deriving DecidableEq

/-- The body of Highs::runPresolve acting on the presolve component
(the method reads the options and the LP and mutates only the presolve
component): early exits when presolve is off or the LP is null, the two
pre-stage time-budget checks, the presolve engine run, the sign flip of
the reduced costs for a maximize-sense original, and the update of the
reduction counters. -/
def Highs.runPresolveComponent (ext : HighsExternal) (opts : HighsOptions)
    (lp : HighsLp) (p0 : PresolveComponent) :
    HighsPresolveStatus × PresolveComponent :=
  if opts.presolve = off_string then (HighsPresolveStatus.NotPresolved, p0)
  else if lp.numCol = 0 ∧ lp.numRow = 0 then (HighsPresolveStatus.NullError, p0)
  else
    let p := if p0.has_run_ then PresolveComponent.clear0 else p0
    let start_presolve := ext.clockStart
    let gate := 0 < opts.time_limit ∧ opts.time_limit < HIGHS_CONST_INF
    if gate ∧ opts.time_limit - start_presolve ≤ 0 then
      (HighsPresolveStatus.Timeout, p)
    else
      let p := if gate then { p with time_limit := opts.time_limit - start_presolve }
               else p
      -- presolve_.init(lp_, timer_): take a working copy of the model
      let p := { p with lp_copy := lp }
      let time_init := ext.clockAfterInit - start_presolve
      if gate ∧ p.time_limit - time_init ≤ 0 then
        (HighsPresolveStatus.Timeout, p)
      else
        let p := if gate then { p with time_limit := opts.time_limit } else p
        -- presolve_.run(): external reduction engine; records its status,
        -- marks the component as having run and exposes the reduced problem
        let presolve_return_status := ext.presolveRun
        let p := { p with
            has_run_ := true,
            presolve_status_ := presolve_return_status,
            reduced_lp :=
              match presolve_return_status with
              | HighsPresolveStatus.Reduced => ext.reducedLp
              | HighsPresolveStatus.ReducedToEmpty => emptyLp
              | _ => p.reduced_lp }
        -- Handle max case
        let p := if presolve_return_status = HighsPresolveStatus.Reduced ∧
                    lp.sense = ObjSense.MAXIMIZE
                 then { p with reduced_lp := { p.reduced_lp with
                          colCost := p.reduced_lp.colCost.map fun c => -c } }
                 else p
        -- Update reduction counts
        let p :=
          match p.presolve_status_ with
          | HighsPresolveStatus.Reduced =>
              { p with info :=
                  ⟨(lp.numCol : ℤ) - p.reduced_lp.numCol,
                    (lp.numRow : ℤ) - p.reduced_lp.numRow,
                    (lp.Avalue.length : ℤ) - p.reduced_lp.Avalue.length⟩ }
          | HighsPresolveStatus.ReducedToEmpty =>
              { p with info :=
                  ⟨(lp.numCol : ℤ), (lp.numRow : ℤ), (lp.Avalue.length : ℤ)⟩ }
          | _ => p
        (presolve_return_status, p)

/-- Highs::runPresolve (mutates only the presolve component). -/
def Highs.runPresolve (ext : HighsExternal) (s : HighsState) :
    HighsPresolveStatus × HighsState :=
  let r := Highs.runPresolveComponent ext s.options_ s.lp_ s.presolve_
  (r.1, { s with presolve_ := r.2 })

/-- The body of Highs::runPostsolve acting on the presolve component
(the method reads the objective sense and mutates only the presolve
component): check the reduced solution is consistent with the reduced
problem, bail out when no reduction occurred, negate the reduced-space
column duals for a maximize-sense original (the PresolveComponent
sign-flip helper, modelled from the spec), run the external postsolve,
and negate the duals back on success. -/
def Highs.runPostsolveComponent (ext : HighsExternal) (sense : ObjSense)
    (p0 : PresolveComponent) : HighsPostsolveStatus × PresolveComponent :=
  if ¬ isSolutionConsistent p0.reduced_lp p0.reduced_solution_ then
    (HighsPostsolveStatus.ReducedSolutionDimenionsError, p0)
  else if p0.presolve_status_ ≠ HighsPresolveStatus.Reduced ∧
          p0.presolve_status_ ≠ HighsPresolveStatus.ReducedToEmpty then
    (HighsPostsolveStatus.NoPostsolve, p0)
  else
    let negateColDuals := fun (p : PresolveComponent) =>
      { p with reduced_solution_ := { p.reduced_solution_ with
          col_dual := p.reduced_solution_.col_dual.map fun c => -c } }
    let p := if sense = ObjSense.MAXIMIZE then negateColDuals p0 else p0
    let res := ext.postsolve p.reduced_solution_
    let p := { p with recovered_solution_ := res.2 }
    if res.1 ≠ HighsPostsolveStatus.SolutionRecovered then (res.1, p)
    else
      let p := if sense = ObjSense.MAXIMIZE then negateColDuals p else p
      (HighsPostsolveStatus.SolutionRecovered, p)

/-- Highs::runPostsolve (mutates only the presolve component). -/
def Highs.runPostsolve (ext : HighsExternal) (s : HighsState) :
    HighsPostsolveStatus × HighsState :=
  let r := Highs.runPostsolveComponent ext s.lp_.sense s.presolve_
  (r.1, { s with presolve_ := r.2 })

/-- Highs::runLpSolver: dispatch the configured LP solver on one model
object, transferring the iteration counts into and out of the
caller-visible info. -/
def Highs.runLpSolver (ext : HighsExternal) (callIdx model_index : Nat)
    (s : HighsState) : HighsStatus × HighsState :=
  if model_index < s.hmos_.length then
    let model := (s.hmos_.getD model_index defaultHmo)
    -- copyHighsIterationCounts(info_, iteration_counts)
    let model := { model with simplex_iteration_count := s.info_.simplex_iteration_count }
    let res := ext.solveLp callIdx s.options_ model
    let s := { s with hmos_ := s.hmos_.set model_index res.1 }
    if res.2 = HighsStatus.Error then (HighsStatus.Error, s)
    else
      -- copyHighsIterationCounts(iteration_counts, info_)
      let s := { s with info_ := { s.info_ with
          simplex_iteration_count := res.1.simplex_iteration_count } }
      (res.2, s)
  else (HighsStatus.Error, s)

/-- Highs::getHighsModelStatusAndInfo: harvest status and solution
parameters from the most recently solved model object into the top-level
result. -/
def Highs.getHighsModelStatusAndInfo (solved_hmo : Nat) (s : HighsState) :
    Bool × HighsState :=
  if ¬ Highs.haveHmo s then (false, s)
  else
    let m := s.hmos_.getD solved_hmo defaultHmo
    let p := m.unscaled_solution_params_
    (true, { s with
      model_status_ := m.unscaled_model_status_,
      scaled_model_status_ := m.scaled_model_status_,
      info_ := { s.info_ with
        primal_status := p.primal_status,
        dual_status := p.dual_status,
        objective_function_value := p.objective_function_value,
        num_primal_infeasibilities := p.num_primal_infeasibilities,
        max_primal_infeasibility := p.max_primal_infeasibility,
        sum_primal_infeasibilities := p.sum_primal_infeasibilities,
        num_dual_infeasibilities := p.num_dual_infeasibilities,
        max_dual_infeasibility := p.max_dual_infeasibility,
        sum_dual_infeasibilities := p.sum_dual_infeasibilities } })

/-- Lines 741-824 of Highs::run: harvest status/info from the solved
context, copy the context-0 solution and basis into the caller-visible
result, derive the aggregate return code from the scaled model status
and finalize. -/
def Highs.finishRun (ret0 : HighsStatus) (solved_hmo : Nat) (s : HighsState)
    (events : List RunEvent) : RunResult :=
  let r := Highs.getHighsModelStatusAndInfo solved_hmo s
  if r.1 = false then
    ⟨HighsStatus.Error, Highs.beforeReturnFromRun HighsStatus.Error r.2, events⟩
  else
    let s := r.2
    let s := { s with solution_ := (s.hmos_.getD 0 defaultHmo).solution_,
                      basis_ := (s.hmos_.getD 0 defaultHmo).basis_ }
    let call_status := highsStatusFromHighsModelStatus s.scaled_model_status_
    let return_status := interpretCallStatus call_status ret0
    ⟨return_status, Highs.beforeReturnFromRun return_status s, events⟩

/-- Lines 607-711 of Highs::run: the postsolve section.  When the solved
context is scaled-optimal and presolve actually reduced the problem,
extract the reduced-space solution and basis, run postsolve, and on
recovery hot-start the simplex solver on the original context with
single-threaded deterministic options; on postsolve failure mark
postsolve-error and abort.  When the solved context is not optimal, the
original context inherits its statuses. -/
def Highs.postsolveSection (ext : HighsExternal) (ret0 : HighsStatus)
    (presolve_status : HighsPresolveStatus) (solved_hmo : Nat)
    (s : HighsState) (events : List RunEvent) : RunResult :=
  if (s.hmos_.getD solved_hmo defaultHmo).scaled_model_status_ =
      HighsModelStatus.OPTIMAL then
    if presolve_status = HighsPresolveStatus.Reduced ∨
       presolve_status = HighsPresolveStatus.ReducedToEmpty then
      -- For an empty reduced problem, resize the solution to match it
      let s := if presolve_status = HighsPresolveStatus.ReducedToEmpty then
        { s with hmos_ := updAt s.hmos_ solved_hmo fun m =>
            { m with solution_ := emptySolution } }
        else s
      let solvedObj := s.hmos_.getD solved_hmo defaultHmo
      let s := { s with presolve_ := { s.presolve_ with
          reduced_solution_ := solvedObj.solution_,
          basis_col_status := solvedObj.basis_.col_status,
          basis_row_status := solvedObj.basis_.row_status } }
      let pres := Highs.runPostsolve ext s
      let s := pres.2
      let events := events ++ [RunEvent.postsolveCall]
      if pres.1 = HighsPostsolveStatus.SolutionRecovered then
        -- Hot-start the simplex solver for the original context
        let s := { s with hmos_ := updAt s.hmos_ 0 fun m =>
            { m with scaled_model_status_ := HighsModelStatus.NOTSET,
                     unscaled_model_status_ := HighsModelStatus.NOTSET,
                     unscaled_solution_params_ := HighsSolutionParams.reset,
                     scaled_solution_params_ := HighsSolutionParams.reset,
                     solution_ := s.presolve_.recovered_solution_,
                     basis_ := ⟨ext.postsolveColStatus, ext.postsolveRowStatus, true⟩ } }
        let solved_hmo := 0
        let save_options := s.options_
        let s := { s with options_ := { s.options_ with
            solver := if s.options_.solver = ipm_string then simplex_string
                      else s.options_.solver,
            simplex_strategy := SIMPLEX_STRATEGY_CHOOSE,
            highs_min_threads := 1,
            highs_max_threads := 1 } }
        let optsAtCall := s.options_
        let callIdx := countSolveEvents events
        let r := Highs.runLpSolver ext callIdx solved_hmo s
        let s := r.2
        let events := events ++ [RunEvent.solveCall callIdx optsAtCall]
        let return_status := interpretCallStatus r.1 ret0
        -- Recover the options
        let s := { s with options_ := save_options }
        if return_status = HighsStatus.Error then
          ⟨return_status, Highs.beforeReturnFromRun return_status s, events⟩
        else
          Highs.finishRun return_status solved_hmo s events
      else
        let s := { s with
          model_status_ := HighsModelStatus.POSTSOLVE_ERROR,
          scaled_model_status_ := HighsModelStatus.POSTSOLVE_ERROR,
          hmos_ := updAt s.hmos_ 0 fun m =>
            { m with unscaled_model_status_ := HighsModelStatus.POSTSOLVE_ERROR,
                     scaled_model_status_ := HighsModelStatus.POSTSOLVE_ERROR } }
        ⟨HighsStatus.Error, Highs.beforeReturnFromRun HighsStatus.Error s, events⟩
    else
      Highs.finishRun ret0 solved_hmo s events
  else
    -- Optimal solution of presolved problem has not been found:
    -- the original model inherits the solved model's status
    let solvedObj := s.hmos_.getD solved_hmo defaultHmo
    let s := { s with hmos_ := updAt s.hmos_ 0 fun m =>
        { m with unscaled_model_status_ := solvedObj.unscaled_model_status_,
                 scaled_model_status_ := solvedObj.scaled_model_status_ } }
    Highs.finishRun ret0 solved_hmo s events

/-- Lines 433-711 of Highs::run: the presolve path taken when no valid
caller basis exists and presolve is not disabled: force crossover for
IPX, run presolve, and handle its outcome with the exhaustive six-way
branch. -/
def Highs.presolvePath (ext : HighsExternal) (ret0 : HighsStatus)
    (presolve_hmo : Nat) (s : HighsState) : RunResult :=
  -- If using IPX to solve the reduced LP, crossover must be run
  let s := if s.options_.solver = ipm_string ∧ s.options_.run_crossover = false
           then { s with options_ := { s.options_ with run_crossover := true } }
           else s
  let s := { s with hmos_ := updAt s.hmos_ 0 fun m =>
      { m with scaled_model_status_ := HighsModelStatus.NOTSET } }
  let pr := Highs.runPresolve ext s
  let presolve_status := pr.1
  let s := pr.2
  let events := [RunEvent.presolveCall]
  match presolve_status with
  | HighsPresolveStatus.NotPresolved =>
      let optsAtCall := s.options_
      let r := Highs.runLpSolver ext (countSolveEvents events) 0 s
      let events := events ++ [RunEvent.solveCall (countSolveEvents events) optsAtCall]
      let return_status := interpretCallStatus r.1 ret0
      if return_status = HighsStatus.Error then
        ⟨return_status, Highs.beforeReturnFromRun return_status r.2, events⟩
      else
        Highs.postsolveSection ext return_status presolve_status 0 r.2 events
  | HighsPresolveStatus.NotReduced =>
      let optsAtCall := s.options_
      let r := Highs.runLpSolver ext (countSolveEvents events) 0 s
      let events := events ++ [RunEvent.solveCall (countSolveEvents events) optsAtCall]
      let return_status := interpretCallStatus r.1 ret0
      if return_status = HighsStatus.Error then
        ⟨return_status, Highs.beforeReturnFromRun return_status r.2, events⟩
      else
        Highs.postsolveSection ext return_status presolve_status 0 r.2 events
  | HighsPresolveStatus.Reduced =>
      let cb := ext.cleanBounds s.presolve_.reduced_lp
      -- cleanBounds mutates the reduced problem in place
      let s := { s with presolve_ := { s.presolve_ with reduced_lp := cb.2 } }
      if interpretCallStatus cb.1 ret0 = HighsStatus.Error then
        ⟨HighsStatus.Error, s, events⟩
      else
        let s := { s with hmos_ := s.hmos_ ++ [HighsModelObject.mk0 s.presolve_.reduced_lp] }
        let solved_hmo := presolve_hmo
        -- Do not try dual cut-off when solving the presolved LP
        let save_dual_objective_value_upper_bound :=
          s.options_.dual_objective_value_upper_bound
        let s := { s with options_ := { s.options_ with
            dual_objective_value_upper_bound := HIGHS_CONST_INF } }
        let optsAtCall := s.options_
        let r := Highs.runLpSolver ext (countSolveEvents events) solved_hmo s
        let s := r.2
        let events := events ++ [RunEvent.solveCall (countSolveEvents events) optsAtCall]
        -- Restore the dual objective cut-off
        let s := { s with options_ := { s.options_ with
            dual_objective_value_upper_bound := save_dual_objective_value_upper_bound } }
        let return_status := interpretCallStatus r.1 ret0
        if return_status = HighsStatus.Error then
          ⟨return_status, Highs.beforeReturnFromRun return_status s, events⟩
        else
          Highs.postsolveSection ext return_status presolve_status solved_hmo s events
  | HighsPresolveStatus.ReducedToEmpty =>
      let s := { s with hmos_ := updAt s.hmos_ 0 fun m =>
          { m with unscaled_model_status_ := HighsModelStatus.OPTIMAL,
                   scaled_model_status_ := HighsModelStatus.OPTIMAL } }
      Highs.postsolveSection ext ret0 presolve_status 0 s events
  | HighsPresolveStatus.Infeasible =>
      let s := { s with
        model_status_ := HighsModelStatus.PRIMAL_INFEASIBLE,
        scaled_model_status_ := HighsModelStatus.PRIMAL_INFEASIBLE,
        hmos_ := updAt s.hmos_ 0 fun m =>
          { m with unscaled_model_status_ := HighsModelStatus.PRIMAL_INFEASIBLE,
                   scaled_model_status_ := HighsModelStatus.PRIMAL_INFEASIBLE } }
      ⟨HighsStatus.OK, Highs.beforeReturnFromRun HighsStatus.OK s, events⟩
  | HighsPresolveStatus.Unbounded =>
      let s := { s with
        model_status_ := HighsModelStatus.PRIMAL_UNBOUNDED,
        scaled_model_status_ := HighsModelStatus.PRIMAL_UNBOUNDED,
        hmos_ := updAt s.hmos_ 0 fun m =>
          { m with unscaled_model_status_ := HighsModelStatus.PRIMAL_UNBOUNDED,
                   scaled_model_status_ := HighsModelStatus.PRIMAL_UNBOUNDED } }
      ⟨HighsStatus.OK, Highs.beforeReturnFromRun HighsStatus.OK s, events⟩
  | HighsPresolveStatus.Timeout =>
      ⟨HighsStatus.Warning,
        { s with model_status_ := HighsModelStatus.PRESOLVE_ERROR }, events⟩
  | HighsPresolveStatus.OptionsError =>
      ⟨HighsStatus.Warning,
        { s with model_status_ := HighsModelStatus.PRESOLVE_ERROR }, events⟩
  | HighsPresolveStatus.NullError =>
      let s := { s with
        model_status_ := HighsModelStatus.PRESOLVE_ERROR,
        scaled_model_status_ := HighsModelStatus.PRESOLVE_ERROR,
        hmos_ := updAt s.hmos_ 0 fun m =>
          { m with unscaled_model_status_ := HighsModelStatus.PRESOLVE_ERROR,
                   scaled_model_status_ := HighsModelStatus.PRESOLVE_ERROR } }
      ⟨HighsStatus.Error, Highs.beforeReturnFromRun HighsStatus.Error s, events⟩
  | HighsPresolveStatus.Error =>
      let s := { s with
        model_status_ := HighsModelStatus.PRESOLVE_ERROR,
        scaled_model_status_ := HighsModelStatus.PRESOLVE_ERROR,
        hmos_ := updAt s.hmos_ 0 fun m =>
          { m with unscaled_model_status_ := HighsModelStatus.PRESOLVE_ERROR,
                   scaled_model_status_ := HighsModelStatus.PRESOLVE_ERROR } }
      ⟨HighsStatus.Error, Highs.beforeReturnFromRun HighsStatus.Error s, events⟩

/-- The body of Highs::run after a model object is known to exist:
initialise the status values, return immediately for an LP with no
columns, and branch on whether presolve is considered. -/
def Highs.runMain (ext : HighsExternal) (ret0 : HighsStatus) (s : HighsState) :
    RunResult :=
  -- Initialise the HiGHS model status values
  let s := { s with
    hmos_ := updAt s.hmos_ 0 fun m =>
      { m with scaled_model_status_ := HighsModelStatus.NOTSET,
               unscaled_model_status_ := HighsModelStatus.NOTSET },
    model_status_ := HighsModelStatus.NOTSET,
    scaled_model_status_ := HighsModelStatus.NOTSET }
  -- Return immediately if the LP has no columns
  if s.lp_.numCol = 0 then
    let s := { s with
      model_status_ := HighsModelStatus.MODEL_EMPTY,
      scaled_model_status_ := HighsModelStatus.MODEL_EMPTY,
      hmos_ := updAt s.hmos_ 0 fun m =>
        { m with unscaled_model_status_ := HighsModelStatus.MODEL_EMPTY,
                 scaled_model_status_ := HighsModelStatus.MODEL_EMPTY } }
    let return_status := highsStatusFromHighsModelStatus s.model_status_
    ⟨return_status, Highs.beforeReturnFromRun return_status s, []⟩
  else
    let presolve_hmo := s.hmos_.length
    if s.basis_.valid_ = false ∧ s.options_.presolve ≠ off_string then
      Highs.presolvePath ext ret0 presolve_hmo s
    else
      -- There is a valid basis for the problem or presolve is off
      let s := if s.basis_.valid_ then
        { s with hmos_ := updAt s.hmos_ 0 fun m => { m with basis_ := s.basis_ } }
        else s
      let optsAtCall := s.options_
      let r := Highs.runLpSolver ext 0 0 s
      let events := [RunEvent.solveCall 0 optsAtCall]
      let return_status := interpretCallStatus r.1 ret0
      if return_status = HighsStatus.Error then
        ⟨return_status, Highs.beforeReturnFromRun return_status r.2, events⟩
      else
        Highs.finishRun return_status 0 r.2 events

/-- The state produced by Highs::passModel followed by Highs::reset for a
freshly read model: install the LP, rebuild the single-context pool and
clear the solver state and the presolve session. -/
def Highs.passModelReset (lp : HighsLp) (s : HighsState) : HighsState :=
  Highs.clearSolver { s with lp_ := lp, hmos_ := [HighsModelObject.mk0 lp],
                             presolve_ := PresolveComponent.clear0 }

/-- Highs::run: the run orchestrator.  Optionally reset options when
running as hsol, load a model when none is loaded, then execute the main
pipeline. -/
def Highs.run (ext : HighsExternal) (s0 : HighsState) : RunResult :=
  -- If running as hsol, reset any changed options
  let s := if s0.options_.run_as_hsol
           then { s0 with options_ := ext.setHsolOptions s0.options_ } else s0
  if s.hmos_.length = 0 then
    if s.options_.model_file = FILENAME_DEFAULT then
      -- model_file is still the default value, so return with an error
      ⟨HighsStatus.Error, Highs.beforeReturnFromRun HighsStatus.Error s, []⟩
    else
      -- Load the model according to the value of model_file
      if ext.readModel.1 = HighsStatus.Error then
        ⟨HighsStatus.Error, Highs.beforeReturnFromRun HighsStatus.Error s, []⟩
      else
        let s := Highs.passModelReset ext.readModel.2 s
        Highs.runMain ext (interpretCallStatus ext.readModel.1 HighsStatus.OK) s
  else
    Highs.runMain ext HighsStatus.OK s

/-- Highs::unscaledOptimal: the scaled-optimal solution is unscaled
optimal when the maximum unscaled primal and dual infeasibilities are
within the caller-supplied tolerances. -/
def Highs.unscaledOptimal (unscaled_primal_feasibility_tolerance
    unscaled_dual_feasibility_tolerance : ℚ) (s : HighsState) : Bool :=
  if s.scaled_model_status_ = HighsModelStatus.OPTIMAL then
    if s.info_.max_primal_infeasibility > unscaled_primal_feasibility_tolerance ∨
       s.info_.max_dual_infeasibility > unscaled_dual_feasibility_tolerance then
      false
    else true
  else false

/-- Highs::getUseModelStatus: reconcile scaled and unscaled optimality.
Returns the call status, the use model status (an in-out parameter whose
incoming value is `use0`), the final state, and the number of automatic
re-runs performed. -/
def Highs.getUseModelStatus (ext : HighsExternal) (use0 : HighsModelStatus)
    (unscaled_primal_feasibility_tolerance
      unscaled_dual_feasibility_tolerance : ℚ)
    (rerun_from_logical_basis : Bool) (s : HighsState) :
    HighsStatus × HighsModelStatus × HighsState × Nat :=
  if s.model_status_ ≠ HighsModelStatus.NOTSET then
    (HighsStatus.OK, s.model_status_, s, 0)
  else
    if Highs.unscaledOptimal unscaled_primal_feasibility_tolerance
        unscaled_dual_feasibility_tolerance s then
      (HighsStatus.OK, HighsModelStatus.OPTIMAL, s, 0)
    else if rerun_from_logical_basis then
      let save_presolve := s.options_.presolve
      let s := { s with basis_ := { s.basis_ with valid_ := false },
                        options_ := { s.options_ with presolve := on_string } }
      let r := Highs.run ext s
      let return_status := interpretCallStatus r.status HighsStatus.OK
      let s := { r.state with options_ := { r.state.options_ with
          presolve := save_presolve } }
      if return_status = HighsStatus.Error then (return_status, use0, s, 1)
      else if s.model_status_ ≠ HighsModelStatus.NOTSET then
        (HighsStatus.OK, s.model_status_, s, 1)
      else if Highs.unscaledOptimal unscaled_primal_feasibility_tolerance
          unscaled_dual_feasibility_tolerance s then
        (HighsStatus.OK, HighsModelStatus.OPTIMAL, s, 1)
      else (HighsStatus.OK, use0, s, 1)
    else
      -- Nothing to be done: use the original unscaled model status
      (HighsStatus.OK, s.model_status_, s, 0)

/-- The outcome of one delegated structural edit, as left in the solve
context by the external solver-facing edit interface: the status it
reports, and the LP and context-0 basis after the edit. -/
structure EditDelegate where
  status : HighsStatus
  lp : HighsLp
  hmo_basis : HighsBasis
deriving DecidableEq

/-- Apply the external delegate's effect on the model and context 0. -/
def Highs.applyEditDelegate (d : EditDelegate) (s : HighsState) : HighsState :=
  { s with lp_ := d.lp,
           hmos_ := updAt s.hmos_ 0 fun m =>
             { m with lp_ := d.lp, basis_ := d.hmo_basis } }

/-- Highs::addRows / Highs::addRow: delegate the structural edit, abort
on failure, and resynchronize the caller-visible solution and basis. -/
def Highs.addRows (d : EditDelegate) (s : HighsState) : Bool × HighsState :=
  if ¬ Highs.haveHmo s then (false, s)
  else
    let s := Highs.applyEditDelegate d s
    if interpretCallStatus d.status HighsStatus.OK = HighsStatus.Error then (false, s)
    else
      let u := Highs.updateHighsSolutionBasis s
      if u.1 = false then (false, u.2)
      else (true, u.2)

/-- Highs::addCols / Highs::addCol. -/
def Highs.addCols (d : EditDelegate) (s : HighsState) : Bool × HighsState :=
  if ¬ Highs.haveHmo s then (false, s)
  else
    let s := Highs.applyEditDelegate d s
    if interpretCallStatus d.status HighsStatus.OK = HighsStatus.Error then (false, s)
    else
      let u := Highs.updateHighsSolutionBasis s
      if u.1 = false then (false, u.2)
      else (true, u.2)

/-- Highs::deleteRows (contiguous range, index set, or mask overloads). -/
def Highs.deleteRows (d : EditDelegate) (s : HighsState) : Bool × HighsState :=
  if ¬ Highs.haveHmo s then (false, s)
  else
    let s := Highs.applyEditDelegate d s
    if interpretCallStatus d.status HighsStatus.OK = HighsStatus.Error then (false, s)
    else
      let u := Highs.updateHighsSolutionBasis s
      if u.1 = false then (false, u.2)
      else (true, u.2)

/-- Highs::deleteCols (contiguous range, index set, or mask overloads). -/
def Highs.deleteCols (d : EditDelegate) (s : HighsState) : Bool × HighsState :=
  if ¬ Highs.haveHmo s then (false, s)
  else
    let s := Highs.applyEditDelegate d s
    if interpretCallStatus d.status HighsStatus.OK = HighsStatus.Error then (false, s)
    else
      let u := Highs.updateHighsSolutionBasis s
      if u.1 = false then (false, u.2)
      else (true, u.2)

/-- Highs::changeColsBounds (all overloads). -/
def Highs.changeColsBounds (d : EditDelegate) (s : HighsState) : Bool × HighsState :=
  if ¬ Highs.haveHmo s then (false, s)
  else
    let s := Highs.applyEditDelegate d s
    if interpretCallStatus d.status HighsStatus.OK = HighsStatus.Error then (false, s)
    else (true, s)

/-- Highs::changeRowsBounds (all overloads). -/
def Highs.changeRowsBounds (d : EditDelegate) (s : HighsState) : Bool × HighsState :=
  if ¬ Highs.haveHmo s then (false, s)
  else
    let s := Highs.applyEditDelegate d s
    if interpretCallStatus d.status HighsStatus.OK = HighsStatus.Error then (false, s)
    else (true, s)

/-- Highs::changeColsCost (all overloads). -/
def Highs.changeColsCost (d : EditDelegate) (s : HighsState) : Bool × HighsState :=
  if ¬ Highs.haveHmo s then (false, s)
  else
    let s := Highs.applyEditDelegate d s
    if interpretCallStatus d.status HighsStatus.OK = HighsStatus.Error then (false, s)
    else (true, s)

/-- Highs::changeCoeff. -/
def Highs.changeCoeff (d : EditDelegate) (s : HighsState) : Bool × HighsState :=
  if ¬ Highs.haveHmo s then (false, s)
  else
    let s := Highs.applyEditDelegate d s
    if interpretCallStatus d.status HighsStatus.OK = HighsStatus.Error then (false, s)
    else (true, s)

/-- Highs::changeObjectiveSense. -/
def Highs.changeObjectiveSense (d : EditDelegate) (s : HighsState) : Bool × HighsState :=
  if ¬ Highs.haveHmo s then (false, s)
  else
    let s := Highs.applyEditDelegate d s
    if interpretCallStatus d.status HighsStatus.OK = HighsStatus.Error then (false, s)
    else (true, s)

/-- Highs::openWriteFile: an empty file name means stdout; otherwise the
file system oracle decides whether the file can be opened for writing;
the html flag is derived from the extension. -/
def Highs.openWriteFile (canOpen : Bool) (filename : String) :
    HighsStatus × Bool :=
  if filename = "" then (HighsStatus.OK, false)
  else if canOpen = false then (HighsStatus.Error, false)
  else (HighsStatus.OK, filename.endsWith ".html")

/-- Highs::writeSolution: open the output file, then report that the
feature is under development and return Warning; the actual write is
commented out in the source, so nothing is emitted and, the method being
const, the stored state is returned unchanged.  The boolean result
records whether the solution was written to the file. -/
def Highs.writeSolution (canOpen : Bool) (filename : String) (pretty : Bool)
    (s : HighsState) : HighsStatus × HighsState × Bool :=
  let call_status := (Highs.openWriteFile canOpen filename).1
  if interpretCallStatus call_status HighsStatus.OK = HighsStatus.Error then
    (HighsStatus.Error, s, false)
  else
    (HighsStatus.Warning, s, false)

/-- Concrete fixture: a 2-column, 1-row maximize LP. -/
def exLp2 : HighsLp :=
  ⟨2, 1, [1, 1], [0, 0], [10, 10], [0], [10], [0, 1, 2], [0, 0], [1, 1],
    ObjSense.MAXIMIZE⟩

/-- Concrete fixture: a 1-column, 1-row minimize LP used as a reduced
problem. -/
def exLp1 : HighsLp :=
  ⟨1, 1, [1], [0], [10], [0], [10], [0, 1], [0], [1], ObjSense.MINIMIZE⟩

/-- Concrete fixture: options with presolve enabled, no time limit. -/
def exOptions : HighsOptions :=
  ⟨choose_string, simplex_string, false, false, FILENAME_DEFAULT, 0, 5, 2, 4, 0, 1⟩

/-- Concrete fixture: a non-empty caller-visible solution. -/
def exSolution : HighsSolution := ⟨[3, 7], [10], [0, 0], [1]⟩

/-- Concrete fixture: a non-cleared info record. -/
def exInfo : HighsInfo := ⟨1, 1, 5, 0, 0, 0, 0, 0, 0, 9⟩

/-- Concrete fixture: an invalid basis with non-empty status arrays. -/
def exStaleBasis : HighsBasis :=
  ⟨[HighsBasisStatus.BASIC, HighsBasisStatus.LOWER], [HighsBasisStatus.UPPER], false⟩

/-- Concrete fixture: a loaded state with one solve context and stale
caller-visible solution/basis/info from an earlier call. -/
def exState : HighsState :=
  ⟨exLp2, [HighsModelObject.mk0 exLp2], exOptions, exSolution, exStaleBasis,
    exInfo, HighsModelStatus.NOTSET, HighsModelStatus.NOTSET,
    PresolveComponent.clear0⟩

/-- Concrete fixture: external outcomes whose presolve engine reports a
timeout. -/
def exExtTimeout : HighsExternal :=
  ⟨id, (HighsStatus.OK, emptyLp), 0, 0, HighsPresolveStatus.Timeout, exLp1,
    fun lp => (HighsStatus.OK, lp),
    fun _ _ m => (m, HighsStatus.OK),
    fun sol => (HighsPostsolveStatus.SolutionRecovered, sol),
    [], []⟩

/-- Concrete fixture: external outcomes whose presolve engine detects
infeasibility. -/
def exExtInfeasible : HighsExternal :=
  { exExtTimeout with presolveRun := HighsPresolveStatus.Infeasible }

/-- Concrete fixture: a solver outcome that reports scaled optimality
with a solution and basis sized to the 1-column reduced problem. -/
def exSolvedHmo (m : HighsModelObject) : HighsModelObject :=
  { m with scaled_model_status_ := HighsModelStatus.OPTIMAL
           unscaled_model_status_ := HighsModelStatus.OPTIMAL
           solution_ := ⟨[2], [2], [0], [1]⟩
           basis_ := ⟨[HighsBasisStatus.BASIC], [HighsBasisStatus.LOWER], true⟩ }

/-- Concrete fixture: external outcomes where presolve reduces the
problem, the solver finds the reduced problem optimal, and postsolve
fails. -/
def exExtPostsolveFail : HighsExternal :=
  { exExtTimeout with presolveRun := HighsPresolveStatus.Reduced
                      solveLp := fun _ _ m => (exSolvedHmo m, HighsStatus.OK)
                      postsolve := fun sol => (HighsPostsolveStatus.NoPostsolve, sol) }

/-- Concrete fixture: a state holding the original context and a solved
reduced context that reports scaled optimality. -/
def exTwoHmoState : HighsState :=
  { exState with hmos_ := [HighsModelObject.mk0 exLp2,
      exSolvedHmo (HighsModelObject.mk0 exLp1)] }

/-- The Incremental Editor's mutating operations (add/delete rows or
columns, change bounds, costs, a coefficient, or the objective sense). -/
def editorOps : List (EditDelegate → HighsState → Bool × HighsState) :=
  [Highs.addRows, Highs.addCols, Highs.deleteRows, Highs.deleteCols,
    Highs.changeColsBounds, Highs.changeRowsBounds, Highs.changeColsCost,
    Highs.changeCoeff, Highs.changeObjectiveSense]

/-- The editor operations that change the model dimensions and
resynchronize the caller-visible solution and basis. -/
def resizingOps : List (EditDelegate → HighsState → Bool × HighsState) :=
  [Highs.addRows, Highs.addCols, Highs.deleteRows, Highs.deleteCols]

/-- Concrete fixture: a presolve session that has reduced the problem to
the 1-column LP, with a reduced-space solution sized to it. -/
def exReducedComponent : PresolveComponent :=
  { PresolveComponent.clear0 with
      has_run_ := true
      presolve_status_ := HighsPresolveStatus.Reduced
      reduced_lp := exLp1
      reduced_solution_ := ⟨[2], [2], [5], [1]⟩ }

/-- The run pipeline on the reduced-problem path decomposes into the
postsolve section applied after the presolve stage and the solve of the
reduced problem in context 1. -/
def ReducedDecomp (ext : HighsExternal) (res : RunResult) : Prop :=
  ∃ (s2 : HighsState) (ev2 : List RunEvent) (a : HighsModelObject)
    (i : Nat) (o : HighsOptions) (mm : HighsModelObject),
    res = Highs.postsolveSection ext HighsStatus.OK
        HighsPresolveStatus.Reduced 1 s2 ev2 ∧
    s2.hmos_ = [a, (ext.solveLp i o mm).1] ∧
    s2.presolve_.presolve_status_ = HighsPresolveStatus.Reduced ∧
    ev2 = [RunEvent.presolveCall, RunEvent.solveCall 0 o]

/-- Membership in the error class of model statuses (load, model,
presolve, solve, postsolve error). -/
def isErrorClassStatus (m : HighsModelStatus) : Bool :=
  match m with
  | HighsModelStatus.LOAD_ERROR => true
  | HighsModelStatus.MODEL_ERROR => true
  | HighsModelStatus.PRESOLVE_ERROR => true
  | HighsModelStatus.SOLVE_ERROR => true
  | HighsModelStatus.POSTSOLVE_ERROR => true
  | _ => false

/-- Concrete fixture: external outcomes whose presolve engine fails with
an internal error. -/
def exExtPresolveErr : HighsExternal :=
  { exExtTimeout with presolveRun := HighsPresolveStatus.Error }

/-- updAt preserves the list length. -/
theorem updAt_length (l : List α) (i : Nat) (f : α → α) :
    (updAt l i f).length = l.length := by
  induction l generalizing i with
  | nil => rfl
  | cons a t ih =>
      cases i with
      | zero => rfl
      | succ j => simp [updAt, ih]

/-- listResize produces a list of exactly the requested length. -/
theorem listResize_length (l : List α) (n : Nat) (d : α) :
    (listResize l n d).length = n := by
  simp only [listResize, List.length_append, List.length_take,
    List.length_replicate]
  omega

/-- The clearing helpers do not touch the model-object pool. -/
theorem clearSolver_hmos (s : HighsState) :
    (Highs.clearSolver s).hmos_ = s.hmos_ := rfl

/-- The finalizer prunes a pool of one or two contexts back to one. -/
theorem beforeReturnFromRun_hmos_length (r : HighsStatus) (s : HighsState)
    (h : s.hmos_.length = 1 ∨ s.hmos_.length = 2) :
    (Highs.beforeReturnFromRun r s).hmos_.length = 1 := by
  rcases h with h | h <;>
    cases hm : s.scaled_model_status_ <;>
      simp [Highs.beforeReturnFromRun, h, hm, Highs.clearSolver,
        Highs.clearModelStatus, Highs.clearSolution, Highs.clearBasis,
        Highs.clearInfo, List.length_dropLast]

/-- runPresolve touches only the presolve component of the state. -/
theorem runPresolve_frame (ext : HighsExternal) (s : HighsState) :
    (Highs.runPresolve ext s).2 =
      { s with presolve_ := (Highs.runPresolve ext s).2.presolve_ } := rfl

/-- runPostsolve touches only the presolve component of the state. -/
theorem runPostsolve_frame (ext : HighsExternal) (s : HighsState) :
    (Highs.runPostsolve ext s).2 =
      { s with presolve_ := (Highs.runPostsolve ext s).2.presolve_ } := rfl

/-- runLpSolver preserves the pool length. -/
theorem runLpSolver_hmos_length (ext : HighsExternal) (i j : Nat)
    (s : HighsState) :
    (Highs.runLpSolver ext i j s).2.hmos_.length = s.hmos_.length := by
  unfold Highs.runLpSolver
  split
  · dsimp only
    split <;> simp
  · rfl

/-- getHighsModelStatusAndInfo does not touch the model-object pool. -/
theorem getHighsModelStatusAndInfo_hmos (i : Nat) (s : HighsState) :
    (Highs.getHighsModelStatusAndInfo i s).2.hmos_ = s.hmos_ := by
  unfold Highs.getHighsModelStatusAndInfo
  split <;> rfl

/-- A run exit through the finalizer leaves exactly one context in the pool. -/
theorem runExit_hmos_length (r : HighsStatus) (s : HighsState)
    (ev : List RunEvent) (h : s.hmos_.length = 1 ∨ s.hmos_.length = 2) :
    (RunResult.mk r (Highs.beforeReturnFromRun r s) ev).state.hmos_.length = 1 :=
  beforeReturnFromRun_hmos_length r s h

/-- finishRun prunes the pool back to one context. -/
theorem finishRun_hmos_length (rt : HighsStatus) (i : Nat) (s : HighsState)
    (ev : List RunEvent) (h : s.hmos_.length = 1 ∨ s.hmos_.length = 2) :
    (Highs.finishRun rt i s ev).state.hmos_.length = 1 := by
  unfold Highs.finishRun
  dsimp only
  split
  all_goals
    apply runExit_hmos_length
    simp only [getHighsModelStatusAndInfo_hmos]
    exact h

/-- The postsolve section prunes the pool back to one context. -/
theorem postsolveSection_hmos_length (ext : HighsExternal) (rt : HighsStatus)
    (ps : HighsPresolveStatus) (i : Nat) (s : HighsState) (ev : List RunEvent)
    (h : s.hmos_.length = 1 ∨ s.hmos_.length = 2) :
    (Highs.postsolveSection ext rt ps i s ev).state.hmos_.length = 1 := by
  have hpost : ∀ s2 : HighsState, (Highs.runPostsolve ext s2).2.hmos_ = s2.hmos_ :=
    fun _ => rfl
  unfold Highs.postsolveSection
  dsimp only
  repeat' split
  all_goals
    first
    | (apply runExit_hmos_length
       try simp only [runLpSolver_hmos_length, hpost, updAt_length]
       exact h)
    | (apply finishRun_hmos_length
       try simp only [runLpSolver_hmos_length, hpost, updAt_length]
       exact h)

/-- The presolve path of run() always ends with exactly one context. -/
theorem presolvePath_hmos_length (ext : HighsExternal) (rt : HighsStatus)
    (php : Nat) (s : HighsState) (h : s.hmos_.length = 1) :
    (Highs.presolvePath ext rt php s).state.hmos_.length = 1 := by
  have hpre2 : ∀ s2 : HighsState, (Highs.runPresolve ext s2).2.hmos_ = s2.hmos_ :=
    fun _ => rfl
  unfold Highs.presolvePath
  dsimp only
  repeat' split
  all_goals
    first
    | (apply runExit_hmos_length
       try simp only [runLpSolver_hmos_length, hpre2, updAt_length,
         List.length_append, List.length_cons, List.length_nil]
       omega)
    | (apply postsolveSection_hmos_length
       try simp only [runLpSolver_hmos_length, hpre2, updAt_length,
         List.length_append, List.length_cons, List.length_nil]
       omega)
    | (try simp only [runLpSolver_hmos_length, hpre2, updAt_length,
         List.length_append, List.length_cons, List.length_nil]
       omega)

/-- The main body of run() always ends with exactly one context. -/
theorem runMain_hmos_length (ext : HighsExternal) (rt : HighsStatus)
    (s : HighsState) (h : s.hmos_.length = 1) :
    (Highs.runMain ext rt s).state.hmos_.length = 1 := by
  unfold Highs.runMain
  dsimp only
  repeat' split
  all_goals
    first
    | (apply runExit_hmos_length
       try simp only [runLpSolver_hmos_length, updAt_length]
       omega)
    | (apply presolvePath_hmos_length
       try simp only [updAt_length]
       omega)
    | (apply finishRun_hmos_length
       try simp only [runLpSolver_hmos_length, updAt_length]
       omega)

/-- run() always ends with exactly one context when entered with one. -/
theorem run_hmos_length (ext : HighsExternal) (s : HighsState)
    (h : s.hmos_.length = 1) :
    (Highs.run ext s).state.hmos_.length = 1 := by
  unfold Highs.run
  dsimp only
  repeat' split
  all_goals
    first
    | (apply runMain_hmos_length
       first | rfl | exact h)
    | (dsimp only at *
       omega)

/-- Claim C3: the Solve Context Pool contains exactly one context (the
original problem) whenever no run is in progress: it holds one context
after construction, and after every return from run() entered in that
state, any reduced-problem context appended during the run having been
removed before the run returns. -/
theorem claim_C3_pool_single_context :
    Highs.construct.hmos_.length = 1 ∧
    ∀ (ext : HighsExternal) (s : HighsState), s.hmos_.length = 1 →
      (Highs.run ext s).state.hmos_.length = 1 :=
  ⟨rfl, fun ext s h => run_hmos_length ext s h⟩

/-- Witness for C3 at a concrete state and concrete external outcomes. -/
theorem claim_C3_pool_single_context_witness :
    exState.hmos_.length = 1 ∧
    (Highs.run exExtPostsolveFail exState).state.hmos_.length = 1 :=
  ⟨rfl, claim_C3_pool_single_context.2 exExtPostsolveFail exState rfl⟩

/-- Claim C4: for every loaded model with zero columns, run() returns OK
with model status model-empty, invokes no pipeline stage (no presolve, no
solver), and leaves the caller-visible Solution and Basis empty. -/
theorem claim_C4_empty_model (ext : HighsExternal) (s : HighsState)
    (hlen : s.hmos_.length = 1) (hhsol : s.options_.run_as_hsol = false)
    (hcol : s.lp_.numCol = 0) :
    (Highs.run ext s).status = HighsStatus.OK ∧
    (Highs.run ext s).state.model_status_ = HighsModelStatus.MODEL_EMPTY ∧
    (Highs.run ext s).state.scaled_model_status_ = HighsModelStatus.MODEL_EMPTY ∧
    (Highs.run ext s).events = [] ∧
    (Highs.run ext s).state.solution_ = emptySolution ∧
    (Highs.run ext s).state.basis_ = emptyBasis := by
  simp [Highs.run, Highs.runMain, hlen, hhsol, hcol,
    highsStatusFromHighsModelStatus, Highs.beforeReturnFromRun, updAt_length,
    Highs.clearSolution, Highs.clearBasis, Highs.clearInfo]

/-- Witness for C4 at a concrete zero-column state. -/
theorem claim_C4_empty_model_witness :
    (Highs.run exExtTimeout
        { exState with lp_ := emptyLp,
                       hmos_ := [HighsModelObject.mk0 emptyLp] }).status =
      HighsStatus.OK ∧
    (Highs.run exExtTimeout
        { exState with lp_ := emptyLp,
                       hmos_ := [HighsModelObject.mk0 emptyLp] }).state.model_status_ =
      HighsModelStatus.MODEL_EMPTY ∧
    (Highs.run exExtTimeout
        { exState with lp_ := emptyLp,
                       hmos_ := [HighsModelObject.mk0 emptyLp] }).state.scaled_model_status_ =
      HighsModelStatus.MODEL_EMPTY ∧
    (Highs.run exExtTimeout
        { exState with lp_ := emptyLp,
                       hmos_ := [HighsModelObject.mk0 emptyLp] }).events = [] ∧
    (Highs.run exExtTimeout
        { exState with lp_ := emptyLp,
                       hmos_ := [HighsModelObject.mk0 emptyLp] }).state.solution_ =
      emptySolution ∧
    (Highs.run exExtTimeout
        { exState with lp_ := emptyLp,
                       hmos_ := [HighsModelObject.mk0 emptyLp] }).state.basis_ =
      emptyBasis :=
  claim_C4_empty_model exExtTimeout
    { exState with lp_ := emptyLp, hmos_ := [HighsModelObject.mk0 emptyLp] }
    rfl rfl rfl

/-- Claim C1: when presolve reports infeasible or unbounded, run()
adopts the detected status (primal-infeasible or primal-unbounded) as
both the scaled and the unscaled model status, on the top-level result
and on context 0, invokes no solve stage and no postsolve stage (the
trace holds the presolve stage only), leaves the caller-visible Solution
empty, and returns OK. -/
theorem claim_C1_presolve_infeasible_unbounded (ext : HighsExternal)
    (s : HighsState)
    (hlen : s.hmos_.length = 1) (hhsol : s.options_.run_as_hsol = false)
    (hcol : s.lp_.numCol ≠ 0) (hbasis : s.basis_.valid_ = false)
    (hpre : s.options_.presolve ≠ off_string)
    (htl : s.options_.time_limit = 0)
    (hout : ext.presolveRun = HighsPresolveStatus.Infeasible ∨
            ext.presolveRun = HighsPresolveStatus.Unbounded) :
    (Highs.run ext s).status = HighsStatus.OK ∧
    (Highs.run ext s).state.model_status_ =
      (if ext.presolveRun = HighsPresolveStatus.Infeasible then
        HighsModelStatus.PRIMAL_INFEASIBLE else HighsModelStatus.PRIMAL_UNBOUNDED) ∧
    (Highs.run ext s).state.scaled_model_status_ =
      (Highs.run ext s).state.model_status_ ∧
    ((Highs.run ext s).state.hmos_.getD 0 defaultHmo).unscaled_model_status_ =
      (Highs.run ext s).state.model_status_ ∧
    ((Highs.run ext s).state.hmos_.getD 0 defaultHmo).scaled_model_status_ =
      (Highs.run ext s).state.model_status_ ∧
    (Highs.run ext s).state.solution_ = emptySolution ∧
    (Highs.run ext s).events = [RunEvent.presolveCall] := by
  obtain ⟨m, hm⟩ : ∃ m, s.hmos_ = [m] := by
    cases hs : s.hmos_ with
    | nil => rw [hs] at hlen; exact absurd hlen (by simp)
    | cons a t =>
        rw [hs] at hlen
        simp only [List.length_cons, Nat.add_left_eq_self, List.length_eq_zero] at hlen
        exact ⟨a, by simp [hs, hlen]⟩
  rcases hout with hout | hout <;>
  by_cases hx : s.options_.solver = ipm_string ∧ s.options_.run_crossover = false <;>
  by_cases hr : s.presolve_.has_run_ = true <;>
  simp [Highs.run, Highs.runMain, Highs.presolvePath, Highs.runPresolve,
    Highs.runPresolveComponent, hlen, hhsol, hcol, hbasis, hpre, htl, hout,
    hx, hr, hm, updAt, Highs.beforeReturnFromRun, Highs.clearSolution,
    Highs.clearInfo]

/-- Witness for C1 at a concrete state where presolve detects
infeasibility. -/
theorem claim_C1_presolve_infeasible_unbounded_witness :
    (Highs.run exExtInfeasible exState).status = HighsStatus.OK ∧
    (Highs.run exExtInfeasible exState).state.model_status_ =
      (if exExtInfeasible.presolveRun = HighsPresolveStatus.Infeasible then
        HighsModelStatus.PRIMAL_INFEASIBLE else HighsModelStatus.PRIMAL_UNBOUNDED) ∧
    (Highs.run exExtInfeasible exState).state.scaled_model_status_ =
      (Highs.run exExtInfeasible exState).state.model_status_ ∧
    ((Highs.run exExtInfeasible exState).state.hmos_.getD 0 defaultHmo).unscaled_model_status_ =
      (Highs.run exExtInfeasible exState).state.model_status_ ∧
    ((Highs.run exExtInfeasible exState).state.hmos_.getD 0 defaultHmo).scaled_model_status_ =
      (Highs.run exExtInfeasible exState).state.model_status_ ∧
    (Highs.run exExtInfeasible exState).state.solution_ = emptySolution ∧
    (Highs.run exExtInfeasible exState).events = [RunEvent.presolveCall] :=
  claim_C1_presolve_infeasible_unbounded exExtInfeasible exState rfl rfl
    (by decide) rfl (by decide) rfl (Or.inl rfl)

/-- The worst-wins combination with OK as running status returns the
call status itself. -/
theorem interpretCallStatus_ok (c : HighsStatus) :
    interpretCallStatus c HighsStatus.OK = c := by
  cases c <;> rfl

/-- Behaviour of a dimension-changing editor operation: immediate
failure without a context, failure with untouched caller-visible
solution/basis when the delegate fails, and resynchronization on
success. -/
theorem addRows_spec (d : EditDelegate) (s : HighsState) :
    (s.hmos_ = [] → Highs.addRows d s = (false, s)) ∧
    (d.status = HighsStatus.Error → (Highs.addRows d s).1 = false ∧
       (Highs.addRows d s).2.solution_ = s.solution_ ∧
       (Highs.addRows d s).2.basis_ = s.basis_) ∧
    (d.status ≠ HighsStatus.Error → s.hmos_ ≠ [] →
       (Highs.addRows d s).1 = true ∧
       (Highs.addRows d s).2.solution_.col_value.length = d.lp.numCol ∧
       (Highs.addRows d s).2.solution_.row_value.length = d.lp.numRow ∧
       (Highs.addRows d s).2.solution_.col_dual.length = d.lp.numCol ∧
       (Highs.addRows d s).2.solution_.row_dual.length = d.lp.numRow ∧
       (d.hmo_basis.valid_ = true → (Highs.addRows d s).2.basis_ = d.hmo_basis) ∧
       (d.hmo_basis.valid_ = false →
          (Highs.addRows d s).2.basis_.valid_ = false ∧
          (Highs.addRows d s).2.basis_.col_status.length = d.lp.numCol ∧
          (Highs.addRows d s).2.basis_.row_status.length = d.lp.numRow)) := by
  cases hs : s.hmos_ with
  | nil =>
      simp [Highs.addRows, Highs.haveHmo, hs]
  | cons a t =>
      by_cases hd : d.status = HighsStatus.Error <;>
      by_cases hb : d.hmo_basis.valid_ = true <;>
      simp [Highs.addRows, Highs.haveHmo, hs, hd, hb, interpretCallStatus_ok,
        Highs.applyEditDelegate, Highs.updateHighsSolutionBasis, updAt,
        resizeSolution, listResize_length, Highs.clearSolution]

/-- Behaviour of a non-resizing editor operation: immediate failure
without a context, failure with untouched caller-visible solution/basis
when the delegate fails, success leaving them untouched as well. -/
theorem changeColsBounds_spec (d : EditDelegate) (s : HighsState) :
    (s.hmos_ = [] → Highs.changeColsBounds d s = (false, s)) ∧
    (d.status = HighsStatus.Error → (Highs.changeColsBounds d s).1 = false ∧
       (Highs.changeColsBounds d s).2.solution_ = s.solution_ ∧
       (Highs.changeColsBounds d s).2.basis_ = s.basis_) ∧
    (d.status ≠ HighsStatus.Error → s.hmos_ ≠ [] →
       (Highs.changeColsBounds d s).1 = true ∧
       (Highs.changeColsBounds d s).2.solution_ = s.solution_ ∧
       (Highs.changeColsBounds d s).2.basis_ = s.basis_) := by
  cases hs : s.hmos_ with
  | nil =>
      simp [Highs.changeColsBounds, Highs.haveHmo, hs]
  | cons a t =>
      by_cases hd : d.status = HighsStatus.Error <;>
      simp [Highs.changeColsBounds, Highs.haveHmo, hs, hd,
        interpretCallStatus_ok, Highs.applyEditDelegate]

/-- Claim C9: every Incremental Editor mutating operation fails
immediately, returning false, when no solve context exists; when the
delegated structural edit reports failure the operation returns false
with the caller-visible Solution and Basis untouched; on success of a
row/column add or delete, the caller-visible Solution is resized to the
new model dimensions and the Basis is adopted from context 0 when that
context still reports a valid basis, otherwise marked invalid and
resized to the new dimensions. -/
theorem claim_C9_incremental_editor (d : EditDelegate) (s : HighsState) :
    (∀ op, op ∈ editorOps → s.hmos_ = [] → op d s = (false, s)) ∧
    (∀ op, op ∈ editorOps → d.status = HighsStatus.Error →
       (op d s).1 = false ∧ (op d s).2.solution_ = s.solution_ ∧
       (op d s).2.basis_ = s.basis_) ∧
    (∀ op, op ∈ resizingOps → d.status ≠ HighsStatus.Error → s.hmos_ ≠ [] →
       (op d s).1 = true ∧
       (op d s).2.solution_.col_value.length = d.lp.numCol ∧
       (op d s).2.solution_.row_value.length = d.lp.numRow ∧
       (op d s).2.solution_.col_dual.length = d.lp.numCol ∧
       (op d s).2.solution_.row_dual.length = d.lp.numRow ∧
       (d.hmo_basis.valid_ = true → (op d s).2.basis_ = d.hmo_basis) ∧
       (d.hmo_basis.valid_ = false →
          (op d s).2.basis_.valid_ = false ∧
          (op d s).2.basis_.col_status.length = d.lp.numCol ∧
          (op d s).2.basis_.row_status.length = d.lp.numRow)) := by
  refine ⟨?_, ?_, ?_⟩
  · intro op hop
    simp only [editorOps, List.mem_cons, List.not_mem_nil, or_false] at hop
    rcases hop with h | h | h | h | h | h | h | h | h <;> subst h
    · exact (addRows_spec d s).1
    · exact (addRows_spec d s).1
    · exact (addRows_spec d s).1
    · exact (addRows_spec d s).1
    · exact (changeColsBounds_spec d s).1
    · exact (changeColsBounds_spec d s).1
    · exact (changeColsBounds_spec d s).1
    · exact (changeColsBounds_spec d s).1
    · exact (changeColsBounds_spec d s).1
  · intro op hop
    simp only [editorOps, List.mem_cons, List.not_mem_nil, or_false] at hop
    rcases hop with h | h | h | h | h | h | h | h | h <;> subst h
    · exact (addRows_spec d s).2.1
    · exact (addRows_spec d s).2.1
    · exact (addRows_spec d s).2.1
    · exact (addRows_spec d s).2.1
    · exact (changeColsBounds_spec d s).2.1
    · exact (changeColsBounds_spec d s).2.1
    · exact (changeColsBounds_spec d s).2.1
    · exact (changeColsBounds_spec d s).2.1
    · exact (changeColsBounds_spec d s).2.1
  · intro op hop
    simp only [resizingOps, List.mem_cons, List.not_mem_nil, or_false] at hop
    rcases hop with h | h | h | h <;> subst h <;>
      exact (addRows_spec d s).2.2

/-- Witness for C9: a concrete successful row addition resizes the
caller-visible solution to the new dimensions. -/
theorem claim_C9_incremental_editor_witness :
    (Highs.addRows ⟨HighsStatus.OK, exLp2, emptyBasis⟩ exState).1 = true ∧
    (Highs.addRows ⟨HighsStatus.OK, exLp2, emptyBasis⟩
      exState).2.solution_.col_value.length = exLp2.numCol ∧
    (Highs.addRows ⟨HighsStatus.OK, exLp2, emptyBasis⟩ exState = (false, exState) →
      False) :=
  ⟨((claim_C9_incremental_editor ⟨HighsStatus.OK, exLp2, emptyBasis⟩
      exState).2.2 Highs.addRows (by simp [resizingOps]) (by decide)
      (by decide)).1,
    ((claim_C9_incremental_editor ⟨HighsStatus.OK, exLp2, emptyBasis⟩
      exState).2.2 Highs.addRows (by simp [resizingOps]) (by decide)
      (by decide)).2.1,
    fun hcontra => by
      have := ((claim_C9_incremental_editor ⟨HighsStatus.OK, exLp2, emptyBasis⟩
        exState).2.2 Highs.addRows (by simp [resizingOps]) (by decide)
        (by decide)).1
      rw [hcontra] at this
      exact absurd this (by decide)⟩

/-- Claim C10: writeSolution never returns OK and never writes the
solution: for every filename it returns Error exactly when the file
cannot be opened for writing and Warning otherwise, emits nothing, and
leaves the stored state (solution, basis, LP) unchanged. -/
theorem claim_C10_writeSolution_never_writes (canOpen pretty : Bool)
    (filename : String) (s : HighsState) :
    (Highs.writeSolution canOpen filename pretty s).1 ≠ HighsStatus.OK ∧
    (Highs.writeSolution canOpen filename pretty s).2.2 = false ∧
    (Highs.writeSolution canOpen filename pretty s).2.1 = s ∧
    (Highs.writeSolution canOpen filename pretty s).1 =
      (if filename = "" ∨ canOpen = true then HighsStatus.Warning
       else HighsStatus.Error) := by
  by_cases hf : filename = "" <;> cases canOpen <;>
    simp [Highs.writeSolution, Highs.openWriteFile, hf, interpretCallStatus]

/-- Witness for C10 at a concrete unopenable file. -/
theorem claim_C10_writeSolution_never_writes_witness :
    (Highs.writeSolution false "sol.txt" true exState).1 ≠ HighsStatus.OK ∧
    (Highs.writeSolution false "sol.txt" true exState).2.1 = exState :=
  ⟨(claim_C10_writeSolution_never_writes false true "sol.txt" exState).1,
    (claim_C10_writeSolution_never_writes false true "sol.txt" exState).2.2.1⟩

/-- Claim C8: for a maximize-sense original problem, the reduced
problem's objective costs are negated immediately after the presolve
engine reports the reduced outcome; and the reduced-space column duals
are negated before postsolve is invoked (the recovered solution is the
postsolve image of the negated duals) and negated back after postsolve
reports solution-recovered, the two negations cancelling on the
successful path. -/
theorem claim_C8_maximize_negations :
    (∀ (ext : HighsExternal) (opts : HighsOptions) (lp : HighsLp)
        (p0 : PresolveComponent),
       opts.presolve ≠ off_string → opts.time_limit = 0 →
       ext.presolveRun = HighsPresolveStatus.Reduced →
       lp.sense = ObjSense.MAXIMIZE → lp.numCol ≠ 0 →
       (Highs.runPresolveComponent ext opts lp p0).2.reduced_lp =
         { ext.reducedLp with
            colCost := ext.reducedLp.colCost.map fun c => -c }) ∧
    (∀ (ext : HighsExternal) (p0 : PresolveComponent),
       isSolutionConsistent p0.reduced_lp p0.reduced_solution_ = true →
       p0.presolve_status_ = HighsPresolveStatus.Reduced →
       (ext.postsolve { p0.reduced_solution_ with
           col_dual := p0.reduced_solution_.col_dual.map fun c => -c }).1 =
         HighsPostsolveStatus.SolutionRecovered →
       (Highs.runPostsolveComponent ext ObjSense.MAXIMIZE p0).1 =
         HighsPostsolveStatus.SolutionRecovered ∧
       (Highs.runPostsolveComponent ext ObjSense.MAXIMIZE
           p0).2.reduced_solution_.col_dual =
         p0.reduced_solution_.col_dual ∧
       (Highs.runPostsolveComponent ext ObjSense.MAXIMIZE
           p0).2.recovered_solution_ =
         (ext.postsolve { p0.reduced_solution_ with
            col_dual := p0.reduced_solution_.col_dual.map fun c => -c }).2) := by
  constructor
  · intro ext opts lp p0 hpre htl hout hsense hcol
    by_cases hr : p0.has_run_ = true <;>
    simp [Highs.runPresolveComponent, hpre, htl, hout, hsense, hcol, hr]
  · intro ext p0 hcons hst hrec
    simp [Highs.runPostsolveComponent, hcons, hst, hrec, List.map_map,
      Function.comp, neg_neg]

/-- Witness for C8 at a concrete reduced problem and presolve session. -/
theorem claim_C8_maximize_negations_witness :
    (Highs.runPresolveComponent exExtPostsolveFail exOptions exLp2
        PresolveComponent.clear0).2.reduced_lp =
      { exExtPostsolveFail.reducedLp with
          colCost := exExtPostsolveFail.reducedLp.colCost.map fun c => -c } ∧
    (Highs.runPostsolveComponent exExtTimeout ObjSense.MAXIMIZE
        exReducedComponent).2.reduced_solution_.col_dual =
      exReducedComponent.reduced_solution_.col_dual :=
  ⟨claim_C8_maximize_negations.1 exExtPostsolveFail exOptions exLp2
      PresolveComponent.clear0 (by decide) rfl rfl rfl (by decide),
    (claim_C8_maximize_negations.2 exExtTimeout exReducedComponent
      (by decide) rfl rfl).2.1⟩

/-- Counterexample to claim C2 as stated: when presolve reports a
timeout, run() ends with the final unscaled model status presolve-error
(an error-class status) yet returns Warning, not Error, and leaves the
caller-visible Solution and Info uncleared. -/
theorem claim_C2_counterexample :
    isErrorClassStatus (Highs.run exExtTimeout exState).state.model_status_ = true ∧
    (Highs.run exExtTimeout exState).status = HighsStatus.Warning ∧
    (Highs.run exExtTimeout exState).status ≠ HighsStatus.Error ∧
    (Highs.run exExtTimeout exState).state.solution_ = exSolution ∧
    exSolution ≠ emptySolution ∧
    (Highs.run exExtTimeout exState).state.info_ = exInfo ∧
    exInfo ≠ HighsInfo.cleared := by decide

/-- Claim C2 as amended: error-class scaled statuses that reach the
finalizer clear the caller-visible Solution, Basis, and Info, and the
presolve-failure path returns Error with everything cleared and the
error mark left on context 0 (the top-level statuses being reset by the
clearing); but the presolve timeout and options-error outcomes mark
presolve-error on the unscaled status only, bypass the finalizer,
leave Solution, Basis, and Info untouched, and return Warning. -/
theorem claim_C2_amended (ext : HighsExternal) (s : HighsState)
    (hlen : s.hmos_.length = 1) (hhsol : s.options_.run_as_hsol = false)
    (hcol : s.lp_.numCol ≠ 0) (hbasis : s.basis_.valid_ = false)
    (hpre : s.options_.presolve ≠ off_string)
    (htl : s.options_.time_limit = 0) :
    (∀ (r : HighsStatus) (st : HighsState), st.hmos_.length ≠ 0 →
       isErrorClassStatus st.scaled_model_status_ = true →
       (Highs.beforeReturnFromRun r st).solution_ = emptySolution ∧
       (Highs.beforeReturnFromRun r st).basis_ = emptyBasis ∧
       (Highs.beforeReturnFromRun r st).info_ = HighsInfo.cleared) ∧
    ((ext.presolveRun = HighsPresolveStatus.Timeout ∨
      ext.presolveRun = HighsPresolveStatus.OptionsError) →
       (Highs.run ext s).status = HighsStatus.Warning ∧
       (Highs.run ext s).state.model_status_ = HighsModelStatus.PRESOLVE_ERROR ∧
       (Highs.run ext s).state.scaled_model_status_ = HighsModelStatus.NOTSET ∧
       (Highs.run ext s).state.solution_ = s.solution_ ∧
       (Highs.run ext s).state.basis_ = s.basis_ ∧
       (Highs.run ext s).state.info_ = s.info_) ∧
    ((ext.presolveRun = HighsPresolveStatus.NullError ∨
      ext.presolveRun = HighsPresolveStatus.Error) →
       (Highs.run ext s).status = HighsStatus.Error ∧
       (Highs.run ext s).state.solution_ = emptySolution ∧
       (Highs.run ext s).state.basis_ = emptyBasis ∧
       (Highs.run ext s).state.info_ = HighsInfo.cleared ∧
       ((Highs.run ext s).state.hmos_.getD 0 defaultHmo).unscaled_model_status_ =
         HighsModelStatus.PRESOLVE_ERROR ∧
       ((Highs.run ext s).state.hmos_.getD 0 defaultHmo).scaled_model_status_ =
         HighsModelStatus.PRESOLVE_ERROR ∧
       (Highs.run ext s).state.model_status_ = HighsModelStatus.NOTSET) := by
  obtain ⟨m, hm⟩ : ∃ m, s.hmos_ = [m] := by
    cases hs : s.hmos_ with
    | nil => rw [hs] at hlen; exact absurd hlen (by simp)
    | cons a t =>
        rw [hs] at hlen
        simp only [List.length_cons, Nat.add_left_eq_self, List.length_eq_zero] at hlen
        exact ⟨a, by simp [hs, hlen]⟩
  refine ⟨?_, ?_, ?_⟩
  · intro r st h0 herr
    cases hms : st.scaled_model_status_ <;>
      simp_all [Highs.beforeReturnFromRun, isErrorClassStatus,
        Highs.clearSolver, Highs.clearModelStatus, Highs.clearSolution,
        Highs.clearBasis, Highs.clearInfo, apply_ite]
  · intro hout
    rcases hout with hout | hout <;>
    by_cases hx : s.options_.solver = ipm_string ∧ s.options_.run_crossover = false <;>
    by_cases hr : s.presolve_.has_run_ = true <;>
    simp [Highs.run, Highs.runMain, Highs.presolvePath, Highs.runPresolve,
      Highs.runPresolveComponent, hlen, hhsol, hcol, hbasis, hpre, htl, hout,
      hx, hr, hm, updAt]
  · intro hout
    rcases hout with hout | hout <;>
    by_cases hx : s.options_.solver = ipm_string ∧ s.options_.run_crossover = false <;>
    by_cases hr : s.presolve_.has_run_ = true <;>
    simp [Highs.run, Highs.runMain, Highs.presolvePath, Highs.runPresolve,
      Highs.runPresolveComponent, hlen, hhsol, hcol, hbasis, hpre, htl, hout,
      hx, hr, hm, updAt, Highs.beforeReturnFromRun, Highs.clearSolver,
      Highs.clearModelStatus, Highs.clearSolution, Highs.clearBasis,
      Highs.clearInfo]


/-- Witness for the amended C2 at a concrete timeout run. -/
theorem claim_C2_amended_witness :
    (Highs.run exExtTimeout exState).status = HighsStatus.Warning ∧
    (Highs.run exExtTimeout exState).state.solution_ = exState.solution_ := by
  have h := (claim_C2_amended exExtTimeout exState rfl rfl (by decide) rfl
    (by decide) rfl).2.1 (Or.inl rfl)
  exact ⟨h.1, h.2.2.2.1⟩

/-- The finalizer never touches the option values. -/
theorem beforeReturnFromRun_options (r : HighsStatus) (st : HighsState) :
    (Highs.beforeReturnFromRun r st).options_ = st.options_ := by
  unfold Highs.beforeReturnFromRun
  dsimp only
  split
  · rfl
  · split <;>
      simp [Highs.clearSolver, Highs.clearModelStatus, Highs.clearSolution,
        Highs.clearBasis, Highs.clearInfo, apply_ite]

/-- finishRun records no further pipeline events. -/
theorem finishRun_events (rt : HighsStatus) (i : Nat) (s : HighsState)
    (ev : List RunEvent) : (Highs.finishRun rt i s ev).events = ev := by
  unfold Highs.finishRun
  dsimp only
  split <;> rfl

/-- finishRun never touches the option values. -/
theorem finishRun_options (rt : HighsStatus) (i : Nat) (s : HighsState)
    (ev : List RunEvent) :
    (Highs.finishRun rt i s ev).state.options_ = s.options_ := by
  have h2 : ∀ (j : Nat) (st : HighsState),
      (Highs.getHighsModelStatusAndInfo j st).2.options_ = st.options_ := by
    intro j st
    unfold Highs.getHighsModelStatusAndInfo
    split <;> rfl
  unfold Highs.finishRun
  dsimp only
  split <;> simp [beforeReturnFromRun_options, h2]

/-- Solver-invocation counts add over trace concatenation. -/
theorem countSolveEvents_append (a b : List RunEvent) :
    countSolveEvents (a ++ b) = countSolveEvents a + countSolveEvents b := by
  simp [countSolveEvents, List.filter_append]

/-- The postsolve section restores the option values on every exit, and
any solver invocation it adds runs with both thread-count options forced
to one and the dual-objective bound it entered with. -/
theorem postsolveSection_optsave (ext : HighsExternal) (rt : HighsStatus)
    (ps : HighsPresolveStatus) (i : Nat) (s : HighsState) (ev : List RunEvent) :
    ((Highs.postsolveSection ext rt ps i s ev).state.options_.dual_objective_value_upper_bound =
       s.options_.dual_objective_value_upper_bound ∧
     (Highs.postsolveSection ext rt ps i s ev).state.options_.highs_min_threads =
       s.options_.highs_min_threads ∧
     (Highs.postsolveSection ext rt ps i s ev).state.options_.highs_max_threads =
       s.options_.highs_max_threads) ∧
    (∀ (j : Nat) (o : HighsOptions),
       RunEvent.solveCall j o ∈ (Highs.postsolveSection ext rt ps i s ev).events →
       RunEvent.solveCall j o ∈ ev ∨
       (j = countSolveEvents ev ∧ o.highs_min_threads = 1 ∧
        o.highs_max_threads = 1 ∧
        o.dual_objective_value_upper_bound =
          s.options_.dual_objective_value_upper_bound)) := by
  have hpost : ∀ s2 : HighsState, (Highs.runPostsolve ext s2).2.options_ = s2.options_ :=
    fun _ => rfl
  have hlpo : ∀ (a b : Nat) (s2 : HighsState),
      (Highs.runLpSolver ext a b s2).2.options_ = s2.options_ := by
    intro a b s2
    unfold Highs.runLpSolver
    dsimp only
    repeat' split
    all_goals rfl
  constructor
  · unfold Highs.postsolveSection
    dsimp only
    repeat' split
    all_goals
      simp [finishRun_options, beforeReturnFromRun_options, hlpo, hpost]
  · intro j o hmem
    unfold Highs.postsolveSection at hmem
    dsimp only at hmem
    repeat' split at hmem
    all_goals
      simp only [finishRun_events, List.mem_append, List.mem_cons,
        List.mem_singleton, List.not_mem_nil, or_false,
        RunEvent.solveCall.injEq] at hmem
    all_goals
      first
      | exact Or.inl hmem
      | (rcases hmem with hmem | hmem
         · exact Or.inl hmem
         · exact absurd hmem (by simp))
      | (rcases hmem with (hmem | hmem) | ⟨hj, ho⟩
         · exact Or.inl hmem
         · exact absurd hmem (by simp)
         · subst hj
           subst ho
           exact Or.inr ⟨by simp [countSolveEvents_append, countSolveEvents],
             by simp [hpost], by simp [hpost], by simp [hpost]⟩)

/-- Transport of the postsolve-section option discipline along given
values of the saved options. -/
theorem postsolveSection_optsSpec (ext : HighsExternal) (rt : HighsStatus)
    (ps : HighsPresolveStatus) (i : Nat) (s : HighsState) (ev : List RunEvent)
    (dv : ℚ) (mn mx : Nat)
    (hdv : s.options_.dual_objective_value_upper_bound = dv)
    (hmn : s.options_.highs_min_threads = mn)
    (hmx : s.options_.highs_max_threads = mx)
    (hev : ∀ (j : Nat) (o : HighsOptions), RunEvent.solveCall j o ∈ ev →
       (j = 0 → o.dual_objective_value_upper_bound = HIGHS_CONST_INF ∧
                o.highs_min_threads = mn ∧ o.highs_max_threads = mx) ∧
       (j ≠ 0 → o.highs_min_threads = 1 ∧ o.highs_max_threads = 1 ∧
                o.dual_objective_value_upper_bound = dv))
    (hcnt : countSolveEvents ev ≠ 0) :
    ((Highs.postsolveSection ext rt ps i s ev).state.options_.dual_objective_value_upper_bound = dv ∧
     (Highs.postsolveSection ext rt ps i s ev).state.options_.highs_min_threads = mn ∧
     (Highs.postsolveSection ext rt ps i s ev).state.options_.highs_max_threads = mx) ∧
    (∀ (j : Nat) (o : HighsOptions),
       RunEvent.solveCall j o ∈ (Highs.postsolveSection ext rt ps i s ev).events →
       (j = 0 → o.dual_objective_value_upper_bound = HIGHS_CONST_INF ∧
                o.highs_min_threads = mn ∧ o.highs_max_threads = mx) ∧
       (j ≠ 0 → o.highs_min_threads = 1 ∧ o.highs_max_threads = 1 ∧
                o.dual_objective_value_upper_bound = dv)) := by
  obtain ⟨⟨o1, o2, o3⟩, omem⟩ := postsolveSection_optsave ext rt ps i s ev
  refine ⟨⟨by rw [o1, hdv], by rw [o2, hmn], by rw [o3, hmx]⟩, ?_⟩
  intro j o hmem
  rcases omem j o hmem with hin | ⟨hj, h1, h2, h3⟩
  · exact hev j o hin
  · constructor
    · intro hj0
      rw [hj0] at hj
      exact absurd hj.symm hcnt
    · intro _
      exact ⟨h1, h2, by rw [h3, hdv]⟩

/-- runLpSolver never touches the option values. -/
theorem runLpSolver_options (ext : HighsExternal) (a b : Nat) (s : HighsState) :
    (Highs.runLpSolver ext a b s).2.options_ = s.options_ := by
  unfold Highs.runLpSolver
  dsimp only
  repeat' split
  all_goals rfl

set_option maxHeartbeats 1000000 in
/-- On the reduced-problem path, the solver invocation on the reduced
problem (ordinal 0) runs with the dual-objective upper bound set to
infinity and the thread-count options untouched; the hot-start
invocation (nonzero ordinal) runs with both thread counts forced to one
and the dual-objective bound restored; and the final option values are
restored on every exit. -/
theorem presolvePath_reduced_optsave (ext : HighsExternal) (rt : HighsStatus)
    (php : Nat) (s : HighsState)
    (hout : ext.presolveRun = HighsPresolveStatus.Reduced)
    (hpre : s.options_.presolve ≠ off_string)
    (htl : s.options_.time_limit = 0)
    (hcol : s.lp_.numCol ≠ 0) :
    ((Highs.presolvePath ext rt php s).state.options_.dual_objective_value_upper_bound =
       s.options_.dual_objective_value_upper_bound ∧
     (Highs.presolvePath ext rt php s).state.options_.highs_min_threads =
       s.options_.highs_min_threads ∧
     (Highs.presolvePath ext rt php s).state.options_.highs_max_threads =
       s.options_.highs_max_threads) ∧
    (∀ (j : Nat) (o : HighsOptions),
       RunEvent.solveCall j o ∈ (Highs.presolvePath ext rt php s).events →
       (j = 0 → o.dual_objective_value_upper_bound = HIGHS_CONST_INF ∧
                o.highs_min_threads = s.options_.highs_min_threads ∧
                o.highs_max_threads = s.options_.highs_max_threads) ∧
       (j ≠ 0 → o.highs_min_threads = 1 ∧ o.highs_max_threads = 1 ∧
                o.dual_objective_value_upper_bound =
                  s.options_.dual_objective_value_upper_bound)) := by
  by_cases hx : s.options_.solver = ipm_string ∧ s.options_.run_crossover = false <;>
  by_cases hr : s.presolve_.has_run_ = true <;>
  by_cases hsen : s.lp_.sense = ObjSense.MAXIMIZE <;>
  (simp only [Highs.presolvePath, Highs.runPresolve, Highs.runPresolveComponent,
     hout, hpre, htl, hcol, hx, hr, hsen, if_true, if_false, ite_true, ite_false,
     and_self, and_true, true_and, not_true, not_false_iff, lt_irrefl,
     decide_True, decide_False, ite_self]
   norm_num
   split
   all_goals try split
   all_goals
     first
     | (refine ⟨⟨rfl, rfl, rfl⟩, ?_⟩
        intro j o hmem
        first
        | simp at hmem
        | (simp only [List.mem_cons, List.mem_singleton, List.not_mem_nil,
             or_false, RunEvent.solveCall.injEq] at hmem
           first
           | exact absurd hmem (by simp)
           | (rcases hmem with hmem | hmem
              · exact absurd hmem (by simp)
              · obtain ⟨hj, ho⟩ := hmem
                subst hj
                subst ho
                exact ⟨fun _ => ⟨rfl, rfl, rfl⟩, fun hcon => absurd rfl hcon⟩)))
     | (refine ⟨⟨?_, ?_, ?_⟩, ?_⟩
        · simp [beforeReturnFromRun_options, runLpSolver_options]
        · simp [beforeReturnFromRun_options, runLpSolver_options]
        · simp [beforeReturnFromRun_options, runLpSolver_options]
        · intro j o hmem
          simp only [List.mem_cons, List.mem_singleton, List.not_mem_nil,
            or_false, RunEvent.solveCall.injEq] at hmem
          rcases hmem with hmem | hmem
          · exact absurd hmem (by simp)
          · obtain ⟨hj, ho⟩ := hmem
            subst hj
            subst ho
            exact ⟨fun _ => ⟨rfl, rfl, rfl⟩, fun hcon => absurd rfl hcon⟩)
     | (apply postsolveSection_optsSpec
        · first | rfl | simp [runLpSolver_options]
        · first | rfl | simp [runLpSolver_options]
        · first | rfl | simp [runLpSolver_options]
        · intro j o hmem
          simp only [List.mem_cons, List.mem_singleton, List.not_mem_nil,
            or_false, RunEvent.solveCall.injEq] at hmem
          rcases hmem with hmem | hmem
          · exact absurd hmem (by simp)
          · obtain ⟨hj, ho⟩ := hmem
            subst hj
            subst ho
            exact ⟨fun _ => ⟨rfl, rfl, rfl⟩, fun hcon => absurd rfl hcon⟩
        · simp [countSolveEvents]))

/-- Claim C6: during the run() pipeline with a reduced problem, the
dual-objective-value upper bound option is set to infinity for the
duration of the reduced-problem solve and restored afterwards, and
during the post-postsolve hot-start re-solve the min and max
thread-count options are forced to exactly 1 and restored afterwards,
in both cases regardless of whether the enclosed solve succeeds or
fails (the external outcomes are universally quantified). -/
theorem claim_C6_option_save_restore (ext : HighsExternal) (s : HighsState)
    (hlen : s.hmos_.length = 1) (hhsol : s.options_.run_as_hsol = false)
    (hcol : s.lp_.numCol ≠ 0) (hbasis : s.basis_.valid_ = false)
    (hpre : s.options_.presolve ≠ off_string)
    (htl : s.options_.time_limit = 0)
    (hout : ext.presolveRun = HighsPresolveStatus.Reduced) :
    ((Highs.run ext s).state.options_.dual_objective_value_upper_bound =
       s.options_.dual_objective_value_upper_bound ∧
     (Highs.run ext s).state.options_.highs_min_threads =
       s.options_.highs_min_threads ∧
     (Highs.run ext s).state.options_.highs_max_threads =
       s.options_.highs_max_threads) ∧
    (∀ (j : Nat) (o : HighsOptions),
       RunEvent.solveCall j o ∈ (Highs.run ext s).events →
       (j = 0 → o.dual_objective_value_upper_bound = HIGHS_CONST_INF ∧
                o.highs_min_threads = s.options_.highs_min_threads ∧
                o.highs_max_threads = s.options_.highs_max_threads) ∧
       (j ≠ 0 → o.highs_min_threads = 1 ∧ o.highs_max_threads = 1 ∧
                o.dual_objective_value_upper_bound =
                  s.options_.dual_objective_value_upper_bound)) := by
  obtain ⟨m, hm⟩ : ∃ m, s.hmos_ = [m] := by
    cases hs : s.hmos_ with
    | nil => rw [hs] at hlen; exact absurd hlen (by simp)
    | cons a t =>
        rw [hs] at hlen
        simp only [List.length_cons, Nat.add_left_eq_self, List.length_eq_zero] at hlen
        exact ⟨a, by simp [hs, hlen]⟩
  have hrun : Highs.run ext s = Highs.presolvePath ext HighsStatus.OK 1
      { s with
          hmos_ := [{ m with
              scaled_model_status_ := HighsModelStatus.NOTSET
              unscaled_model_status_ := HighsModelStatus.NOTSET }]
          model_status_ := HighsModelStatus.NOTSET
          scaled_model_status_ := HighsModelStatus.NOTSET } := by
    simp [Highs.run, Highs.runMain, hhsol, hlen, hcol, hbasis, hpre, hm, updAt]
  rw [hrun]
  exact presolvePath_reduced_optsave ext HighsStatus.OK 1 _ hout hpre htl hcol

/-- Witness for C6 at a concrete reduced-problem run. -/
theorem claim_C6_option_save_restore_witness :
    (Highs.run exExtPostsolveFail exState).state.options_.dual_objective_value_upper_bound =
      exState.options_.dual_objective_value_upper_bound ∧
    (Highs.run exExtPostsolveFail exState).state.options_.highs_min_threads =
      exState.options_.highs_min_threads :=
  ⟨(claim_C6_option_save_restore exExtPostsolveFail exState rfl rfl (by decide)
      rfl (by decide) rfl rfl).1.1,
    (claim_C6_option_save_restore exExtPostsolveFail exState rfl rfl (by decide)
      rfl (by decide) rfl rfl).1.2.1⟩

theorem ok_eq_error_iff : (HighsStatus.OK = HighsStatus.Error) = False := by
  simp

theorem warning_eq_error_iff : (HighsStatus.Warning = HighsStatus.Error) = False := by
  simp

theorem runPostsolveComponent_fail (ext : HighsExternal) (sense : ObjSense)
    (p0 : PresolveComponent)
    (hfail : ∀ sol, (ext.postsolve sol).1 ≠ HighsPostsolveStatus.SolutionRecovered) :
    (Highs.runPostsolveComponent ext sense p0).1 ≠
      HighsPostsolveStatus.SolutionRecovered := by
  unfold Highs.runPostsolveComponent
  dsimp only
  repeat' split
  all_goals simp_all

set_option maxHeartbeats 1000000 in
theorem presolvePath_reduced_decomp (ext : HighsExternal) (s : HighsState)
    (m : HighsModelObject) (hm : s.hmos_ = [m])
    (hout : ext.presolveRun = HighsPresolveStatus.Reduced)
    (hpre : s.options_.presolve ≠ off_string)
    (htl : s.options_.time_limit = 0)
    (hcol : s.lp_.numCol ≠ 0)
    (hclean : ∀ lp, (ext.cleanBounds lp).1 ≠ HighsStatus.Error)
    (hs1 : ∀ (i : Nat) (o : HighsOptions) (mm : HighsModelObject),
       (ext.solveLp i o mm).2 = HighsStatus.OK) :
    ReducedDecomp ext (Highs.presolvePath ext HighsStatus.OK 1 s) := by
  by_cases hx : s.options_.solver = ipm_string ∧ s.options_.run_crossover = false <;>
  by_cases hr : s.presolve_.has_run_ = true <;>
  by_cases hsen : s.lp_.sense = ObjSense.MAXIMIZE <;>
  (simp only [Highs.presolvePath, Highs.runPresolve, Highs.runPresolveComponent,
     Highs.runLpSolver, hm, hout, hpre, htl, hcol, hx, hr, hsen, hclean, hs1,
     interpretCallStatus_ok, updAt, List.set, countSolveEvents, List.filter,
     if_true, if_false, ite_true, ite_false, and_self, and_true, true_and,
     not_true, not_false_iff, lt_irrefl, decide_True, decide_False, ite_self,
     List.getD, List.get?, List.length_cons, List.length_nil,
     ok_eq_error_iff, warning_eq_error_iff]
   norm_num
   simp only [ok_eq_error_iff, if_false]
   unfold ReducedDecomp
   exact ⟨_, _, _, 0, _, _, rfl, rfl, rfl, rfl⟩)

theorem reduced_eq_rte_iff :
    (HighsPresolveStatus.Reduced = HighsPresolveStatus.ReducedToEmpty) = False := by
  simp

theorem postsolveSection_fail (ext : HighsExternal) (rt : HighsStatus)
    (s : HighsState) (ev : List RunEvent) (a b : HighsModelObject)
    (hm2 : s.hmos_ = [a, b])
    (hbopt : b.scaled_model_status_ = HighsModelStatus.OPTIMAL)
    (hfail : ∀ sol, (ext.postsolve sol).1 ≠ HighsPostsolveStatus.SolutionRecovered) :
    (Highs.postsolveSection ext rt HighsPresolveStatus.Reduced 1 s ev).status =
      HighsStatus.Error ∧
    (Highs.postsolveSection ext rt HighsPresolveStatus.Reduced 1 s ev).state.model_status_ =
      HighsModelStatus.NOTSET ∧
    (Highs.postsolveSection ext rt HighsPresolveStatus.Reduced 1 s ev).state.scaled_model_status_ =
      HighsModelStatus.NOTSET ∧
    (Highs.postsolveSection ext rt HighsPresolveStatus.Reduced 1 s ev).state.solution_ =
      emptySolution ∧
    (Highs.postsolveSection ext rt HighsPresolveStatus.Reduced 1 s ev).state.basis_ =
      emptyBasis ∧
    (Highs.postsolveSection ext rt HighsPresolveStatus.Reduced 1 s ev).state.info_ =
      HighsInfo.cleared ∧
    ((Highs.postsolveSection ext rt HighsPresolveStatus.Reduced 1 s
        ev).state.hmos_.getD 0 defaultHmo).unscaled_model_status_ =
      HighsModelStatus.POSTSOLVE_ERROR ∧
    ((Highs.postsolveSection ext rt HighsPresolveStatus.Reduced 1 s
        ev).state.hmos_.getD 0 defaultHmo).scaled_model_status_ =
      HighsModelStatus.POSTSOLVE_ERROR ∧
    (Highs.postsolveSection ext rt HighsPresolveStatus.Reduced 1 s ev).events =
      ev ++ [RunEvent.postsolveCall] := by
  have hres : ∀ (sense : ObjSense) (p : PresolveComponent),
      ((Highs.runPostsolveComponent ext sense p).1 =
        HighsPostsolveStatus.SolutionRecovered) = False := by
    intro sense p
    simp [runPostsolveComponent_fail ext sense p hfail]
  simp only [Highs.postsolveSection, Highs.runPostsolve, hm2, hbopt, hres,
    Highs.beforeReturnFromRun, Highs.clearSolver, Highs.clearModelStatus,
    Highs.clearSolution, Highs.clearBasis, Highs.clearInfo, updAt,
    List.getD, List.get?, List.length_cons, List.length_nil, List.dropLast,
    if_true, if_false, ite_true, ite_false, and_self, and_true, true_and,
    not_true, not_false_iff, ite_self, reduced_eq_rte_iff, eq_self_iff_true]
  simp only [Option.getD_some, hbopt, eq_self_iff_true, if_true, true_or,
    and_self, and_true, true_and]
  norm_num

/-- Postsolve is attempted only in the branch where the solved context
reports scaled optimality and presolve reduced the problem; every other
branch leaves the event trace unchanged. -/
theorem postsolveSection_events_mem (ext : HighsExternal) (rt : HighsStatus)
    (ps : HighsPresolveStatus) (i : Nat) (s : HighsState)
    (ev : List RunEvent)
    (hmem : RunEvent.postsolveCall ∈
      (Highs.postsolveSection ext rt ps i s ev).events) :
    RunEvent.postsolveCall ∈ ev ∨
    ((s.hmos_.getD i defaultHmo).scaled_model_status_ =
        HighsModelStatus.OPTIMAL ∧
      (ps = HighsPresolveStatus.Reduced ∨
        ps = HighsPresolveStatus.ReducedToEmpty)) := by
  unfold Highs.postsolveSection at hmem
  dsimp only at hmem
  split at hmem
  · rename_i hopt
    split at hmem
    · rename_i hred
      exact Or.inr ⟨hopt, hred⟩
    · rw [finishRun_events] at hmem
      exact Or.inl hmem
  · rw [finishRun_events] at hmem
    exact Or.inl hmem

/-- C5 (amended): postsolve is invoked only when the last-solved context
reports scaled status optimal and presolve reduced the problem (reduced
or reduced-to-empty); a postsolve outcome other than solution-recovered
sets postsolve-error as both scaled and unscaled status on context 0 and
run returns Error, but the finalizer clears the result-level statuses
back to not-set and empties the caller-visible solution, basis and
info. -/
theorem claim_C5_amended :
    (∀ (ext : HighsExternal) (rt : HighsStatus) (ps : HighsPresolveStatus)
        (i : Nat) (s : HighsState) (ev : List RunEvent),
      RunEvent.postsolveCall ∈
          (Highs.postsolveSection ext rt ps i s ev).events →
      RunEvent.postsolveCall ∈ ev ∨
      ((s.hmos_.getD i defaultHmo).scaled_model_status_ =
          HighsModelStatus.OPTIMAL ∧
        (ps = HighsPresolveStatus.Reduced ∨
          ps = HighsPresolveStatus.ReducedToEmpty))) ∧
    (∀ (ext : HighsExternal) (rt : HighsStatus) (s : HighsState)
        (ev : List RunEvent) (a b : HighsModelObject),
      s.hmos_ = [a, b] →
      b.scaled_model_status_ = HighsModelStatus.OPTIMAL →
      (∀ sol, (ext.postsolve sol).1 ≠
        HighsPostsolveStatus.SolutionRecovered) →
      (Highs.postsolveSection ext rt HighsPresolveStatus.Reduced 1 s
          ev).status = HighsStatus.Error ∧
      (Highs.postsolveSection ext rt HighsPresolveStatus.Reduced 1 s
          ev).state.model_status_ = HighsModelStatus.NOTSET ∧
      (Highs.postsolveSection ext rt HighsPresolveStatus.Reduced 1 s
          ev).state.scaled_model_status_ = HighsModelStatus.NOTSET ∧
      (Highs.postsolveSection ext rt HighsPresolveStatus.Reduced 1 s
          ev).state.solution_ = emptySolution ∧
      (Highs.postsolveSection ext rt HighsPresolveStatus.Reduced 1 s
          ev).state.basis_ = emptyBasis ∧
      (Highs.postsolveSection ext rt HighsPresolveStatus.Reduced 1 s
          ev).state.info_ = HighsInfo.cleared ∧
      ((Highs.postsolveSection ext rt HighsPresolveStatus.Reduced 1 s
          ev).state.hmos_.getD 0 defaultHmo).unscaled_model_status_ =
        HighsModelStatus.POSTSOLVE_ERROR ∧
      ((Highs.postsolveSection ext rt HighsPresolveStatus.Reduced 1 s
          ev).state.hmos_.getD 0 defaultHmo).scaled_model_status_ =
        HighsModelStatus.POSTSOLVE_ERROR ∧
      (Highs.postsolveSection ext rt HighsPresolveStatus.Reduced 1 s
          ev).events = ev ++ [RunEvent.postsolveCall]) :=
  ⟨postsolveSection_events_mem,
    fun ext rt s ev a b hm2 hbopt hfail =>
      postsolveSection_fail ext rt s ev a b hm2 hbopt hfail⟩

/-- Concrete instantiation of the amended postsolve behaviour on the
two-context fixture whose postsolve engine fails. -/
theorem claim_C5_amended_witness :
    (RunEvent.postsolveCall ∈ ([] : List RunEvent) ∨
      ((exTwoHmoState.hmos_.getD 1 defaultHmo).scaled_model_status_ =
          HighsModelStatus.OPTIMAL ∧
        (HighsPresolveStatus.Reduced = HighsPresolveStatus.Reduced ∨
          HighsPresolveStatus.Reduced =
            HighsPresolveStatus.ReducedToEmpty))) ∧
    (Highs.postsolveSection exExtPostsolveFail HighsStatus.OK
        HighsPresolveStatus.Reduced 1 exTwoHmoState []).status =
      HighsStatus.Error ∧
    (Highs.postsolveSection exExtPostsolveFail HighsStatus.OK
        HighsPresolveStatus.Reduced 1 exTwoHmoState
        []).state.model_status_ = HighsModelStatus.NOTSET ∧
    (Highs.postsolveSection exExtPostsolveFail HighsStatus.OK
        HighsPresolveStatus.Reduced 1 exTwoHmoState
        []).state.scaled_model_status_ = HighsModelStatus.NOTSET ∧
    (Highs.postsolveSection exExtPostsolveFail HighsStatus.OK
        HighsPresolveStatus.Reduced 1 exTwoHmoState
        []).state.solution_ = emptySolution ∧
    (Highs.postsolveSection exExtPostsolveFail HighsStatus.OK
        HighsPresolveStatus.Reduced 1 exTwoHmoState
        []).state.basis_ = emptyBasis ∧
    (Highs.postsolveSection exExtPostsolveFail HighsStatus.OK
        HighsPresolveStatus.Reduced 1 exTwoHmoState
        []).state.info_ = HighsInfo.cleared ∧
    ((Highs.postsolveSection exExtPostsolveFail HighsStatus.OK
        HighsPresolveStatus.Reduced 1 exTwoHmoState
        []).state.hmos_.getD 0 defaultHmo).unscaled_model_status_ =
      HighsModelStatus.POSTSOLVE_ERROR ∧
    ((Highs.postsolveSection exExtPostsolveFail HighsStatus.OK
        HighsPresolveStatus.Reduced 1 exTwoHmoState
        []).state.hmos_.getD 0 defaultHmo).scaled_model_status_ =
      HighsModelStatus.POSTSOLVE_ERROR ∧
    (Highs.postsolveSection exExtPostsolveFail HighsStatus.OK
        HighsPresolveStatus.Reduced 1 exTwoHmoState []).events =
      [] ++ [RunEvent.postsolveCall] :=
  ⟨claim_C5_amended.1 exExtPostsolveFail HighsStatus.OK
      HighsPresolveStatus.Reduced 1 exTwoHmoState [] (by decide),
    claim_C5_amended.2 exExtPostsolveFail HighsStatus.OK exTwoHmoState []
      (HighsModelObject.mk0 exLp2) (exSolvedHmo (HighsModelObject.mk0 exLp1))
      rfl rfl
      (fun sol h => by simp [exExtPostsolveFail, exExtTimeout] at h)⟩

/-- On a run whose postsolve fails, the postsolve-error status survives
only on context 0: the result-level statuses are cleared to not-set by
the finalizer, contrary to the claim that postsolve-error is set on the
result as well. -/
theorem claim_C5_counterexample :
    (Highs.run exExtPostsolveFail exState).status = HighsStatus.Error ∧
    RunEvent.postsolveCall ∈ (Highs.run exExtPostsolveFail exState).events ∧
    ((Highs.run exExtPostsolveFail exState).state.hmos_.getD 0
        defaultHmo).unscaled_model_status_ =
      HighsModelStatus.POSTSOLVE_ERROR ∧
    ((Highs.run exExtPostsolveFail exState).state.hmos_.getD 0
        defaultHmo).scaled_model_status_ =
      HighsModelStatus.POSTSOLVE_ERROR ∧
    (Highs.run exExtPostsolveFail exState).state.model_status_ ≠
      HighsModelStatus.POSTSOLVE_ERROR ∧
    (Highs.run exExtPostsolveFail exState).state.scaled_model_status_ ≠
      HighsModelStatus.POSTSOLVE_ERROR := by
  decide

/-- The unscaled-optimality test: scaled status optimal and both maximum
unscaled infeasibilities within the caller-supplied tolerances. -/
theorem unscaledOptimal_iff (tp td : ℚ) (s : HighsState) :
    Highs.unscaledOptimal tp td s = true ↔
    (s.scaled_model_status_ = HighsModelStatus.OPTIMAL ∧
      s.info_.max_primal_infeasibility ≤ tp ∧
      s.info_.max_dual_infeasibility ≤ td) := by
  unfold Highs.unscaledOptimal
  by_cases h1 : s.scaled_model_status_ = HighsModelStatus.OPTIMAL
  · by_cases h2 : s.info_.max_primal_infeasibility > tp ∨
        s.info_.max_dual_infeasibility > td
    · simp only [h1, if_true, h2, if_false, true_and, Bool.false_eq_true,
        false_iff, not_and, not_le]
      intro ha
      rcases h2 with h | h
      · exact absurd ha (not_le.mpr h)
      · exact h
    · push_neg at h2
      simp [h1, not_or, not_lt, h2.1, h2.2]
  · simp [h1]

/-- With re-running not permitted and the unscaled status not yet set,
getUseModelStatus runs nothing and reports optimal exactly when the
unscaled-optimality test passes. -/
theorem getUseModelStatus_noRerun (ext : HighsExternal)
    (use0 : HighsModelStatus) (tp td : ℚ) (s : HighsState)
    (h : s.model_status_ = HighsModelStatus.NOTSET) :
    Highs.getUseModelStatus ext use0 tp td false s =
      (HighsStatus.OK,
        if Highs.unscaledOptimal tp td s then HighsModelStatus.OPTIMAL
        else s.model_status_, s, 0) := by
  unfold Highs.getUseModelStatus
  by_cases hu : Highs.unscaledOptimal tp td s = true <;>
    simp [h, hu]

/-- With the unscaled status not yet set and the unscaled-optimality
test failing, a permitted re-run happens exactly once: the basis is
invalidated, presolve is forced on for the run, the presolve option is
restored afterwards, and the optimality check is repeated once on the
resulting state. -/
theorem getUseModelStatus_rerun (ext : HighsExternal)
    (use0 : HighsModelStatus) (tp td : ℚ) (s : HighsState)
    (h : s.model_status_ = HighsModelStatus.NOTSET)
    (hu : Highs.unscaledOptimal tp td s = false) :
    (Highs.getUseModelStatus ext use0 tp td true s).2.2.2 = 1 ∧
    (Highs.getUseModelStatus ext use0 tp td true s).2.2.1.options_.presolve =
      s.options_.presolve ∧
    (Highs.getUseModelStatus ext use0 tp td true s).2.2.1 =
      { (Highs.run ext { s with
            basis_ := { s.basis_ with valid_ := false },
            options_ := { s.options_ with presolve := on_string } }).state with
          options_ := { (Highs.run ext { s with
              basis_ := { s.basis_ with valid_ := false },
              options_ := { s.options_ with
                presolve := on_string } }).state.options_ with
            presolve := s.options_.presolve } } ∧
    (interpretCallStatus (Highs.run ext { s with
          basis_ := { s.basis_ with valid_ := false },
          options_ := { s.options_ with presolve := on_string } }).status
        HighsStatus.OK ≠ HighsStatus.Error →
      (Highs.getUseModelStatus ext use0 tp td true s).1 = HighsStatus.OK ∧
      (Highs.getUseModelStatus ext use0 tp td true s).2.1 =
        (if (Highs.getUseModelStatus ext use0 tp td
              true s).2.2.1.model_status_ ≠ HighsModelStatus.NOTSET then
          (Highs.getUseModelStatus ext use0 tp td true s).2.2.1.model_status_
        else if Highs.unscaledOptimal tp td
            (Highs.getUseModelStatus ext use0 tp td true s).2.2.1 then
          HighsModelStatus.OPTIMAL
        else use0)) := by
  unfold Highs.getUseModelStatus
  simp only [h, hu, ne_eq, not_true_eq_false, if_false, Bool.false_eq_true,
    if_true, ite_false, ite_true]
  split
  · rename_i herr
    simp [herr]
  · rename_i hne
    split
    · simp_all
    · split <;> simp_all

/-- C7: getUseModelStatus, called when the unscaled model status is not
yet set, reports optimal exactly when the scaled status is optimal and
the maximum unscaled primal and dual infeasibilities are within the
caller-supplied tolerances; otherwise, if the caller permits re-running,
it performs exactly one automatic re-run with the basis invalidated and
presolve forced on, repeats the optimality check once, and never retries
further; the presolve option is restored afterwards. -/
theorem claim_C7_getUseModelStatus :
    (∀ (tp td : ℚ) (s : HighsState),
      Highs.unscaledOptimal tp td s = true ↔
      (s.scaled_model_status_ = HighsModelStatus.OPTIMAL ∧
        s.info_.max_primal_infeasibility ≤ tp ∧
        s.info_.max_dual_infeasibility ≤ td)) ∧
    (∀ (ext : HighsExternal) (use0 : HighsModelStatus) (tp td : ℚ)
        (s : HighsState),
      s.model_status_ = HighsModelStatus.NOTSET →
      Highs.getUseModelStatus ext use0 tp td false s =
        (HighsStatus.OK,
          if Highs.unscaledOptimal tp td s then HighsModelStatus.OPTIMAL
          else s.model_status_, s, 0)) ∧
    (∀ (ext : HighsExternal) (use0 : HighsModelStatus) (tp td : ℚ)
        (s : HighsState),
      s.model_status_ = HighsModelStatus.NOTSET →
      Highs.unscaledOptimal tp td s = false →
      (Highs.getUseModelStatus ext use0 tp td true s).2.2.2 = 1 ∧
      (Highs.getUseModelStatus ext use0 tp td
          true s).2.2.1.options_.presolve = s.options_.presolve ∧
      (Highs.getUseModelStatus ext use0 tp td true s).2.2.1 =
        { (Highs.run ext { s with
              basis_ := { s.basis_ with valid_ := false },
              options_ := { s.options_ with
                presolve := on_string } }).state with
            options_ := { (Highs.run ext { s with
                basis_ := { s.basis_ with valid_ := false },
                options_ := { s.options_ with
                  presolve := on_string } }).state.options_ with
              presolve := s.options_.presolve } } ∧
      (interpretCallStatus (Highs.run ext { s with
            basis_ := { s.basis_ with valid_ := false },
            options_ := { s.options_ with presolve := on_string } }).status
          HighsStatus.OK ≠ HighsStatus.Error →
        (Highs.getUseModelStatus ext use0 tp td true s).1 = HighsStatus.OK ∧
        (Highs.getUseModelStatus ext use0 tp td true s).2.1 =
          (if (Highs.getUseModelStatus ext use0 tp td
                true s).2.2.1.model_status_ ≠ HighsModelStatus.NOTSET then
            (Highs.getUseModelStatus ext use0 tp td
              true s).2.2.1.model_status_
          else if Highs.unscaledOptimal tp td
              (Highs.getUseModelStatus ext use0 tp td true s).2.2.1 then
            HighsModelStatus.OPTIMAL
          else use0))) :=
  ⟨unscaledOptimal_iff,
    getUseModelStatus_noRerun,
    fun ext use0 tp td s h hu =>
      getUseModelStatus_rerun ext use0 tp td s h hu⟩

/-- Concrete instantiation of the getUseModelStatus behaviour on the
loaded fixture state with both tolerances zero. -/
theorem claim_C7_getUseModelStatus_witness :
    (Highs.unscaledOptimal 0 0 exState = true ↔
      (exState.scaled_model_status_ = HighsModelStatus.OPTIMAL ∧
        exState.info_.max_primal_infeasibility ≤ 0 ∧
        exState.info_.max_dual_infeasibility ≤ 0)) ∧
    Highs.getUseModelStatus exExtTimeout HighsModelStatus.NOTSET 0 0 false
        exState =
      (HighsStatus.OK,
        if Highs.unscaledOptimal 0 0 exState then HighsModelStatus.OPTIMAL
        else exState.model_status_, exState, 0) ∧
    (Highs.getUseModelStatus exExtTimeout HighsModelStatus.NOTSET 0 0 true
        exState).2.2.2 = 1 ∧
    (Highs.getUseModelStatus exExtTimeout HighsModelStatus.NOTSET 0 0 true
        exState).2.2.1.options_.presolve = exState.options_.presolve :=
  ⟨claim_C7_getUseModelStatus.1 0 0 exState,
    claim_C7_getUseModelStatus.2.1 exExtTimeout HighsModelStatus.NOTSET 0 0
      exState rfl,
    (claim_C7_getUseModelStatus.2.2 exExtTimeout HighsModelStatus.NOTSET 0 0
      exState rfl (by decide)).1,
    (claim_C7_getUseModelStatus.2.2 exExtTimeout HighsModelStatus.NOTSET 0 0
      exState rfl (by decide)).2.1⟩
